import Mathlib

/-!
Shallow embedding of the `bitmap` repository's BMP codec and transformation
pipeline (Go sources under `internal/core`, `package/transformations` and the
codec file defining `ParseBMP` / `SerializeBMP`).

Bytes are modelled as natural numbers (a well-formed buffer holds values
below 256); machine integers are `Nat` / `Int` with explicit `% 2^32`
wrapping where the Go code performs 32-bit arithmetic.  Go run-time panics
(out-of-range slice indexing, `make` with a negative length, division by
zero) are modelled by `Option`: `none` is a panic, never a returned error.
-/

namespace Bitmap

/-- A single pixel with BGR channel order, as in the Go `Pixel` struct. -/
structure Pixel where
  blue : Nat
  green : Nat
  red : Nat
  deriving DecidableEq, Repr, Inhabited

/-- The 14-byte BMP file header (`BMPHeader` in the Go source).  The two
signature bytes are kept separately; the `uint32` fields are naturals. -/
structure BMPHeader where
  signature0 : Nat
  signature1 : Nat
  fileSize : Nat
  reserved : Nat
  dataOffset : Nat
  deriving DecidableEq, Repr

/-- The 40-byte DIB info header (`DIBHeader` in the Go source).  Signed
`int32` fields are `Int`, unsigned fields are `Nat`. -/
structure DIBHeader where
  size : Nat
  width : Int
  height : Int
  planes : Nat
  bitsPerPixel : Nat
  compression : Nat
  imageSize : Nat
  xPixelsPerMeter : Int
  yPixelsPerMeter : Int
  colorsUsed : Nat
  colorsImportant : Nat
  deriving DecidableEq, Repr

/-- `BMPImage`: both headers plus the decoded pixel grid. -/
structure BMPImage where
  header : BMPHeader
  infoHeader : DIBHeader
  data : List (List Pixel)
  deriving DecidableEq, Repr

/-- Little-endian 16-bit read at offset `i` (callers are guarded by the
54-byte length check, exactly as the Go slicing `b[i:i+2]` is). -/
def le16 (b : List Nat) (i : Nat) : Nat :=
  b.getD i 0 + 256 * b.getD (i + 1) 0

/-- Little-endian 32-bit read at offset `i` (guarded by the length check). -/
def le32 (b : List Nat) (i : Nat) : Nat :=
  b.getD i 0 + 256 * b.getD (i + 1) 0 + 65536 * b.getD (i + 2) 0 +
    16777216 * b.getD (i + 3) 0

/-- Reinterpret a `uint32` value as a signed `int32`, as the Go conversion
`int32(binary.LittleEndian.Uint32 ...)` does. -/
def int32OfUInt32 (u : Nat) : Int :=
  if u < 2147483648 then (u : Int) else (u : Int) - 4294967296

/-- Reinterpret a signed value as its `uint32` two's-complement image, as the
Go conversion `uint32(int32value)` does. -/
def uint32OfInt (i : Int) : Nat :=
  (i % 4294967296).toNat

/-- Errors returned by the parser, matching the `Err...` variables of the Go
source, plus `panic` for a run-time panic (an out-of-range index). -/
inductive ParseErr where
  | invalidBMP
  | invalidFileType
  | invalidHeaderSize
  | corruptFile
  | nonPositiveDimensions
  | unsupportedFormat
  | unsupportedCompression
  | invalidImageData
  | panic
  deriving DecidableEq, Repr

/-- The expected image size computed by `validateHeaders` in the Go source:
`widthInBytes = uint32(abs(width) * bpp / 8)` (the float conversion wraps to
32 bits on overflow), `paddedWidth = (widthInBytes+3) &^ 3`, then
`(paddedWidth*uint32(abs(height)) + 3) &^ 3`, all in `uint32` arithmetic. -/
def expectedImageSize (w h : Int) (bpp : Nat) : Nat :=
  let widthInBytes := w.natAbs * bpp / 8 % 4294967296
  let paddedWidth := (widthInBytes + 3) % 4294967296 / 4 * 4
  (paddedWidth * h.natAbs % 4294967296 + 3) % 4294967296 / 4 * 4

/-- `validateHeaders` from the Go source: the check sequence that runs after
the two headers have been parsed, in source order. -/
def validateHeaders (hdr : BMPHeader) (dib : DIBHeader) (fileLen : Nat) :
    Option ParseErr :=
  if hdr.fileSize ≠ fileLen % 4294967296 then some .corruptFile
  else if dib.width ≤ 0 ∨ dib.height = 0 then some .nonPositiveDimensions
  else if dib.planes ≠ 1 then some .unsupportedFormat
  else if dib.bitsPerPixel ≠ 24 then some .unsupportedFormat
  else if dib.compression ≠ 0 then some .unsupportedCompression
  else if dib.imageSize ≠ expectedImageSize dib.width dib.height dib.bitsPerPixel
    then some .invalidImageData
  else none

/-- Read one pixel: `b[off]`, `b[off+1]`, `b[off+2]` as blue, green, red.
`none` models the Go index panic when a byte is out of range. -/
def readPixel (b : List Nat) (off : Nat) : Option Pixel := do
  let bl ← b[off]?
  let g ← b[off + 1]?
  let r ← b[off + 2]?
  pure ⟨bl, g, r⟩

/-- Read `n` pixels of row `base`, starting at column `x`: the inner loop of
`ParseBMP`, which reads pixel `(y,x)` at `dataOffset + y*rowSize + x*bpp`. -/
def readRowFrom (b : List Nat) (base bpp : Nat) : Nat → Nat → Option (List Pixel)
  | _, 0 => some []
  | x, n + 1 => do
    let p ← readPixel b (base + x * bpp)
    let rest ← readRowFrom b base bpp (x + 1) n
    pure (p :: rest)

/-- Read `n` rows starting at row `y`: the outer loop of `ParseBMP`.  The
row base offset is `dataOffset + y * rowSize` with `rowSize = width*bpp`
(unpadded), exactly as the Go source computes it. -/
def readRows (b : List Nat) (dOff rowSize bpp w : Nat) :
    Nat → Nat → Option (List (List Pixel))
  | _, 0 => some []
  | y, n + 1 => do
    let row ← readRowFrom b (dOff + y * rowSize) bpp 0 w
    let rest ← readRows b dOff rowSize bpp w (y + 1) n
    pure (row :: rest)

/-- The "Parse BMP Header" block of `ParseBMP`: the field extraction at
bytes 0-13 (reads are guarded by the 54-byte length check). -/
def parsedFileHeader (b : List Nat) : BMPHeader :=
  { signature0 := b.getD 0 0
    signature1 := b.getD 1 0
    fileSize := le32 b 2
    reserved := le32 b 6
    dataOffset := le32 b 10 }

/-- The "Parse DIB Header" block of `ParseBMP`: the field extraction at
bytes 14-53. -/
def parsedDIB (b : List Nat) : DIBHeader :=
  { size := le32 b 14
    width := int32OfUInt32 (le32 b 18)
    height := int32OfUInt32 (le32 b 22)
    planes := le16 b 26
    bitsPerPixel := le16 b 28
    compression := le32 b 30
    imageSize := le32 b 34
    xPixelsPerMeter := int32OfUInt32 (le32 b 38)
    yPixelsPerMeter := int32OfUInt32 (le32 b 42)
    colorsUsed := le32 b 46
    colorsImportant := le32 b 50 }

/-- `ParseBMP` from the Go source: length check, signature check, header
field extraction, info-header size check, `validateHeaders`, then the pixel
loop (whose out-of-range read is a panic, modelled as `ParseErr.panic`). -/
def parseBMP (b : List Nat) : Except ParseErr BMPImage :=
  if b.length < 54 then .error .invalidBMP
  else if ¬(b.getD 0 0 = 66 ∧ b.getD 1 0 = 77) then .error .invalidFileType
  else
    let hdr := parsedFileHeader b
    if (parsedDIB b).size < 40 then .error .invalidHeaderSize
    else
      let dib := parsedDIB b
      match validateHeaders hdr dib b.length with
      | some e => .error e
      | none =>
        let h := dib.height.natAbs
        let w := dib.width.toNat
        let bpp3 := dib.bitsPerPixel / 8
        let rowSize := w * bpp3
        match readRows b hdr.dataOffset rowSize bpp3 w 0 h with
        | none => .error .panic
        | some d => .ok { header := hdr, infoHeader := dib, data := d }

/-! ## Serializer (`SerializeBMP`)

The Go serializer allocates a zero-filled byte array of
`int(DataOffset) + rowSize*abs(height)` bytes, writes the two headers at
fixed offsets, then writes the pixels with a single running offset that
advances by `bytesPerPixel` per pixel (so rows are packed back to back and
the alignment padding accumulates at the end of the buffer).  The array is
modelled as a length plus an update function; each store checks the index
the way a Go slice store does. -/

/-- A mutable byte array: a length and the byte at each index. -/
structure ByteBuf where
  size : Nat
  val : Nat → Nat

/-- Store one byte; `none` models the Go panic on an out-of-range index.
The value is truncated to a byte, as storing into a `[]byte` is. -/
def setByte (m : ByteBuf) (i v : Nat) : Option ByteBuf :=
  if i < m.size then
    some ⟨m.size, fun j => if j = i then v % 256 else m.val j⟩
  else none

/-- `binary.LittleEndian.PutUint16`. -/
def put16 (m : ByteBuf) (off v : Nat) : Option ByteBuf := do
  let m1 ← setByte m off v
  setByte m1 (off + 1) (v / 256)

/-- `binary.LittleEndian.PutUint32`. -/
def put32 (m : ByteBuf) (off v : Nat) : Option ByteBuf := do
  let m1 ← setByte m off v
  let m2 ← setByte m1 (off + 1) (v / 256)
  let m3 ← setByte m2 (off + 2) (v / 65536)
  setByte m3 (off + 3) (v / 16777216)

/-- The inner pixel loop of `SerializeBMP`: write the pixels of one row,
reading `Data[y][x]` for `x < w` (a short row is an index panic) and
advancing the running offset by `step` per pixel. -/
def serRowAux (row : List Pixel) (step : Nat) :
    ByteBuf → Nat → Nat → Nat → Option (ByteBuf × Nat)
  | m, off, _, 0 => some (m, off)
  | m, off, x, n + 1 => do
    let p ← row[x]?
    let m1 ← setByte m off p.blue
    let m2 ← setByte m1 (off + 1) p.green
    let m3 ← setByte m2 (off + 2) p.red
    serRowAux row step m3 (off + step) (x + 1) n

/-- The outer pixel loop of `SerializeBMP`: rows `y, y+1, ...` for `n` rows,
reading `Data[y]` (a missing row is an index panic). -/
def serRowsAux (d : List (List Pixel)) (w step : Nat) :
    ByteBuf → Nat → Nat → Nat → Option (ByteBuf × Nat)
  | m, off, _, 0 => some (m, off)
  | m, off, y, n + 1 => do
    let row ← d[y]?
    let r ← serRowAux row step m off 0 w
    serRowsAux d w step r.1 r.2 (y + 1) n

/-- The "Serialize BMP Header" block of `SerializeBMP`: the four file-header
stores at offsets 0, 2, 6, 10. -/
def putFileHeader (img : BMPImage) (m : ByteBuf) : Option ByteBuf := do
  let m1 ← put16 m 0 (img.header.signature0 % 256 + 256 * (img.header.signature1 % 256))
  let m2 ← put32 m1 2 img.header.fileSize
  let m3 ← put32 m2 6 img.header.reserved
  put32 m3 10 img.header.dataOffset

/-- The first half of the "Serialize DIB Header" block: offsets 14-29. -/
def putDIBHeaderA (img : BMPImage) (m : ByteBuf) : Option ByteBuf := do
  let m1 ← put32 m 14 img.infoHeader.size
  let m2 ← put32 m1 18 (uint32OfInt img.infoHeader.width)
  let m3 ← put32 m2 22 (uint32OfInt img.infoHeader.height)
  let m4 ← put16 m3 26 img.infoHeader.planes
  put16 m4 28 img.infoHeader.bitsPerPixel

/-- The second half of the "Serialize DIB Header" block: offsets 30-53. -/
def putDIBHeaderB (img : BMPImage) (m : ByteBuf) : Option ByteBuf := do
  let m1 ← put32 m 30 img.infoHeader.compression
  let m2 ← put32 m1 34 img.infoHeader.imageSize
  let m3 ← put32 m2 38 (uint32OfInt img.infoHeader.xPixelsPerMeter)
  let m4 ← put32 m3 42 (uint32OfInt img.infoHeader.yPixelsPerMeter)
  let m5 ← put32 m4 46 img.infoHeader.colorsUsed
  put32 m5 50 img.infoHeader.colorsImportant

/-- `SerializeBMP` from the Go source.  `rowSize = (width*bpp + 3) &^ 3` is
computed in (64-bit) `int` arithmetic; clearing the two low bits of a two's
complement value is flooring to a multiple of 4, hence `Int.fdiv`.  A
negative total size makes `make` panic (`none`). -/
def serializeBMP (img : BMPImage) : Option (List Nat) := do
  let headerSize := img.header.dataOffset
  let height := img.infoHeader.height.natAbs
  let bpp3 := img.infoHeader.bitsPerPixel / 8
  let rowSizeI : Int := (img.infoHeader.width * (bpp3 : Int) + 3).fdiv 4 * 4
  let totalI : Int := (headerSize : Int) + rowSizeI * (height : Int)
  if totalI < 0 then none
  else
    let m0 : ByteBuf := ⟨totalI.toNat, fun _ => 0⟩
    let mA ← putFileHeader img m0
    let mB ← putDIBHeaderA img mA
    let mC ← putDIBHeaderB img mB
    let r ← serRowsAux img.data img.infoHeader.width.toNat bpp3 mC headerSize 0 height
    pure ((List.range r.1.size).map r.1.val)

/-! ## Grid helpers

Reads and writes on the `[][]Pixel` grid; `none` models a Go index panic. -/

/-- `image.Data[y][x]` as a read. -/
def gridGet (d : List (List Pixel)) (y x : Nat) : Option Pixel :=
  (d[y]?).bind fun row => row[x]?

/-- `image.Data[y][x]` with the (possibly negative) `int` indices Go uses. -/
def gridGetI (d : List (List Pixel)) (y x : Int) : Option Pixel :=
  if 0 ≤ y ∧ 0 ≤ x then gridGet d y.toNat x.toNat else none

/-- `image.Data[y][x] = p` as a write. -/
def gridSet (d : List (List Pixel)) (y x : Nat) (p : Pixel) :
    Option (List (List Pixel)) := do
  let row ← d[y]?
  if x < row.length then some (d.set y (row.set x p)) else none

/-- Swap `Data[y1][x1]` with `Data[y2][x2]` (the parallel assignment in
`MirrorImage`). -/
def swapPix (d : List (List Pixel)) (y1 x1 y2 x2 : Nat) :
    Option (List (List Pixel)) := do
  let a ← gridGet d y1 x1
  let b ← gridGet d y2 x2
  let d1 ← gridSet d y1 x1 b
  gridSet d1 y2 x2 a

/-! ## Geometric transforms (`mirror.go`, `rotate.go`) -/

/-- `MirrorImage` from the Go source.  `h = len(Data)`, `w = len(Data[0])`
(panic on an empty grid); "horizontal" swaps `(y,x)` with `(y,w-1-x)` for
`x < w/2` on every row, "vertical" swaps `(y,x)` with `(h-1-y,x)` for
`y < h/2` and every `x < w`; other directions leave the image unchanged. -/
def mirrorImage (img : BMPImage) (direction : String) : Option BMPImage :=
  if img.data.isEmpty then none
  else
    let h := img.data.length
    let w := (img.data.headD []).length
    if direction = ("horizontal") then
      (((List.range h).flatMap fun y =>
          (List.range (w / 2)).map fun x => (y, x, y, w - 1 - x)).foldlM
          (fun d q => swapPix d q.1 q.2.1 q.2.2.1 q.2.2.2) img.data).map
        fun d => { img with data := d }
    else if direction = ("vertical") then
      (((List.range (h / 2)).flatMap fun y =>
          (List.range w).map fun x => (y, x, h - 1 - y, x)).foldlM
          (fun d q => swapPix d q.1 q.2.1 q.2.2.1 q.2.2.2) img.data).map
        fun d => { img with data := d }
    else some img

/-- Wrap an `int` to `int32`, as the Go conversion `int32(x)` does. -/
def int32OfInt (i : Int) : Int :=
  int32OfUInt32 (uint32OfInt i)

/-- `Rotate` from the Go source (`rotate.go`): direction `-1` is left
(counter-clockwise), anything else right (clockwise); the output grid has
`w` rows of `h` entries, `rotatedData[i][j] = Data[h-1-j][i]` for left and
`Data[j][w-1-i]` for right, and the header width/height fields are set from
the swapped grid dimensions. -/
def rotate (img : BMPImage) (direction : Int) : Option BMPImage :=
  if img.data.isEmpty then none
  else
    let h := img.data.length
    let w := (img.data.headD []).length
    ((List.range w).mapM fun i =>
        (List.range h).mapM fun j =>
          if direction = -1 then gridGet img.data (h - 1 - j) i
          else gridGet img.data j (w - 1 - i)).map
      fun d =>
        { img with
          infoHeader :=
            { img.infoHeader with height := int32OfInt w, width := int32OfInt h }
          data := d }

/-- Crop parameters (`CropInfo` in the Go source); all four are `int`. -/
structure CropInfo where
  offsetX : Int
  offsetY : Int
  width : Int
  height : Int
  deriving DecidableEq, Repr

/-- The two error returns of `Crop`. -/
inductive CropErr where
  | offsetExceeds
  | areaExceeds
  deriving DecidableEq, Repr

/-- The tail of `Crop` (from `mirror.go`), after the two argument checks
have passed and the omitted width/height have been defaulted: `make` with a
negative length panics, then the copy loop runs (its source row is
`OffsetY + i` for bottom-up images and `absHeight - 1 - (OffsetY + i)` for
top-down ones), and the `FileSize`, `Width`, `Height` and `ImageSize`
header fields are updated. -/
def cropCopy (img : BMPImage) (offsetX offsetY width height : Int) :
    Option BMPImage :=
  if height < 0 ∨ width < 0 ∧ 0 < height then none
  else
    let isTopDown := img.infoHeader.height < 0
    let absHeight : Int := (img.infoHeader.height.natAbs : Int)
    ((List.range height.toNat).mapM fun (i : Nat) =>
        (List.range width.toNat).mapM fun (j : Nat) =>
          gridGetI img.data
            (if ¬isTopDown then offsetY + (i : Int)
              else absHeight - 1 - (offsetY + (i : Int)))
            (offsetX + (j : Int))).map
      fun d =>
        { header :=
            { img.header with
              fileSize := uint32OfInt ((img.header.dataOffset : Int) +
                (width * ((img.infoHeader.bitsPerPixel / 8 : Nat) : Int) + 3).fdiv 4 * 4 *
                  height) }
          infoHeader :=
            { img.infoHeader with
              width := int32OfInt width
              height :=
                if isTopDown then int32OfInt (-height) else int32OfInt height
              imageSize := uint32OfInt
                ((width * ((img.infoHeader.bitsPerPixel / 8 : Nat) : Int) + 3).fdiv 4 * 4 *
                  height) }
          data := d }

/-- `Crop` from `mirror.go`: offset check, defaulting of omitted
width/height, bounds check, then the copy and header updates of
`cropCopy`. -/
def crop (img : BMPImage) (opts : CropInfo) : Option (Except CropErr BMPImage) :=
  let originalWidth : Int := img.infoHeader.width
  let absHeight : Int := (img.infoHeader.height.natAbs : Int)
  if opts.offsetX ≥ originalWidth ∨ opts.offsetY ≥ absHeight then
    some (.error .offsetExceeds)
  else
    let width := if opts.width = 0 then originalWidth - opts.offsetX else opts.width
    let height := if opts.height = 0 then absHeight - opts.offsetY else opts.height
    if opts.offsetX + width > originalWidth ∨ opts.offsetY + height > absHeight then
      some (.error .areaExceeds)
    else (cropCopy img opts.offsetX opts.offsetY width height).map Except.ok

/-! ## IEEE-754 double model for the grayscale filter

The Go grayscale filter computes
`byte(float64(R)*0.2126 + float64(G)*0.7152 + float64(B)*0.0722)`.
Every value arising there is a positive normal double, so `float64`
arithmetic is: round the exact rational result to 53 significant bits,
nearest, ties to even.  `fl` below implements exactly that rounding. -/

/-- Round `a / b` to the nearest integer, ties to even (`b` positive). -/
def rhe (a b : Nat) : Nat :=
  let q := a / b
  let r := a % b
  if 2 * r < b then q
  else if b < 2 * r then q + 1
  else if q % 2 = 0 then q else q + 1

/-- Fuel-driven `⌊log₂ n⌋` (`n` itself is always enough fuel). -/
def log2Aux (n : Nat) : Nat → Nat
  | 0 => 0
  | fuel + 1 => if n ≤ 1 then 0 else 1 + log2Aux (n / 2) fuel

/-- Smallest `m ≥ 1` with `b ≤ a * 2^m`, by fuel (enough fuel for `a ≥ 1`). -/
def negExpAux (a b : Nat) : Nat → Nat
  | 0 => 1
  | fuel + 1 => if b ≤ a * 2 then 1 else 1 + negExpAux (a * 2) b fuel

/-- `⌊log₂ (a/b)⌋` for positive naturals `a`, `b`. -/
def floorLog2 (a b : Nat) : Int :=
  if b ≤ a then (log2Aux (a / b) (a / b) : Int)
  else -(negExpAux a b b : Int)

/-- Every `float64` value in the grayscale computation is a nonnegative
dyadic rational; it is represented as a pair `(m, k)` with value `m / 2^k`.
`flPair a b` rounds the exact fraction `a / b` (with `b > 0`) to 53
significant bits, nearest, ties to even — the value a `float64` operation
returns when its exact result is `a / b` (no overflow or subnormals occur
in the grayscale computation). -/
def flPair (a b : Nat) : Nat × Nat :=
  if a = 0 then (0, 0)
  else
    let e := floorLog2 a b
    let n :=
      if e ≤ 52 then rhe (a * 2 ^ (52 - e).toNat) b
      else rhe a (b * 2 ^ (e - 52).toNat)
    if 52 ≤ e then (n * 2 ^ (e - 52).toNat, 0) else (n, (52 - e).toNat)

/-- Round a dyadic value `m / 2^k` to `float64`. -/
def flDyadic (v : Nat × Nat) : Nat × Nat :=
  flPair v.1 (2 ^ v.2)

/-- Exact sum of two dyadic values. -/
def addDyadic (u v : Nat × Nat) : Nat × Nat :=
  let k := max u.2 v.2
  (u.1 * 2 ^ (k - u.2) + v.1 * 2 ^ (k - v.2), k)

/-- The `float64` value of the literal `0.2126`. -/
def lumaR : Nat × Nat := flPair 2126 10000

/-- The `float64` value of the literal `0.7152`. -/
def lumaG : Nat × Nat := flPair 7152 10000

/-- The `float64` value of the literal `0.0722`. -/
def lumaB : Nat × Nat := flPair 722 10000

/-- The gray value the Go filter computes for one pixel:
`byte(float64(R)*0.2126 + float64(G)*0.7152 + float64(B)*0.0722)` — three
rounded products, two rounded additions (left to right), then the
`byte(...)` conversion, which truncates toward zero. -/
def grayValue (p : Pixel) : Nat :=
  let p1 := flDyadic (p.red % 256 * lumaR.1, lumaR.2)
  let p2 := flDyadic (p.green % 256 * lumaG.1, lumaG.2)
  let p3 := flDyadic (p.blue % 256 * lumaB.1, lumaB.2)
  let s1 := flDyadic (addDyadic p1 p2)
  let s2 := flDyadic (addDyadic s1 p3)
  s2.1 / 2 ^ s2.2 % 256

/-! ## Color filters (`errors.go` in `internal/core`) -/

/-- One step of the `applyColor` switch on a single pixel; the color codes
are the `iota` constants `blue=0, green=1, red=2, grayscale=3, negative=4`
(other codes leave the pixel unchanged). -/
def applyColorPixel (color : Nat) (p : Pixel) : Pixel :=
  if color = 0 then { p with green := 0, red := 0 }
  else if color = 1 then { p with blue := 0, red := 0 }
  else if color = 2 then { p with blue := 0, green := 0 }
  else if color = 3 then
    let g := grayValue p
    ⟨g, g, g⟩
  else if color = 4 then
    ⟨255 - p.blue % 256, 255 - p.green % 256, 255 - p.red % 256⟩
  else p

/-- The inner `x < w` loop of `applyColor` on one row: entries beyond `w`
are untouched, and a row shorter than `w` is an index panic. -/
def applyColorRow (color w : Nat) (row : List Pixel) : Option (List Pixel) :=
  if row.length < w ∧ 0 < w then none
  else some ((row.take w).map (applyColorPixel color) ++ row.drop w)

/-- `applyColor` from the Go source: `h = len(Data)`, `w = len(Data[0])`
(panic on an empty grid), then the per-pixel switch over all `y < h`,
`x < w`. -/
def applyColor (img : BMPImage) (color : Nat) : Option BMPImage :=
  if img.data.isEmpty then none
  else
    (img.data.mapM (applyColorRow color (img.data.headD []).length)).map
      fun d => { img with data := d }

/-! ## Pixelate (`applyPixelate`) -/

/-- `avgColorBlock`: per-channel sums (in `uint32`) and the count over the
block `[startY, startY+bs) × [startX, startX+bs)` clipped to `h` and `w`,
then the integer average.  A zero count is a Go division-by-zero panic. -/
def avgColorBlock (d : List (List Pixel)) (startX startY bs : Nat) : Option Pixel := do
  let h := d.length
  let w := (d.headD []).length
  let ys := List.range' startY (min (startY + bs) h - startY)
  let xs := List.range' startX (min (startX + bs) w - startX)
  let acc ← ys.foldlM
    (fun acc y =>
      xs.foldlM
        (fun acc x => do
          let p ← gridGet d y x
          pure ((acc.1 + p.red % 256) % 4294967296,
            (acc.2.1 + p.green % 256) % 4294967296,
            (acc.2.2.1 + p.blue % 256) % 4294967296, acc.2.2.2 + 1))
        acc)
    ((0, 0, 0, 0) : Nat × Nat × Nat × Nat)
  if acc.2.2.2 = 0 then none
  else pure ⟨acc.2.2.1 / acc.2.2.2 % 256, acc.2.1 / acc.2.2.2 % 256,
    acc.1 / acc.2.2.2 % 256⟩

/-- `fillBlock`: overwrite the clipped block with one pixel value. -/
def fillBlock (d : List (List Pixel)) (startX startY bs : Nat) (p : Pixel) :
    Option (List (List Pixel)) :=
  let h := d.length
  let w := (d.headD []).length
  let ys := List.range' startY (min (startY + bs) h - startY)
  let xs := List.range' startX (min (startX + bs) w - startX)
  ys.foldlM (fun d y => xs.foldlM (fun d x => gridSet d y x p) d) d

/-- `applyPixelate`: iterate the block origins `(y, x)` in steps of the
block size and replace each block by its average.  A zero block size would
loop forever in Go (callers always pass positive sizes), modelled as a
failure. -/
def applyPixelate (img : BMPImage) (bs : Nat) : Option BMPImage :=
  if img.data.isEmpty ∨ bs = 0 then none
  else
    let h := img.data.length
    let w := (img.data.headD []).length
    let origins := (List.range ((h + bs - 1) / bs)).flatMap fun i =>
      (List.range ((w + bs - 1) / bs)).map fun j => (i * bs, j * bs)
    (origins.foldlM
        (fun d (yx : Nat × Nat) => do
          let p ← avgColorBlock d yx.2 yx.1 bs
          fillBlock d yx.2 yx.1 bs p)
        img.data).map
      fun d => { img with data := d }

/-! ## Blur (`applyBlur`) -/

/-- One output pixel of `applyBlur`: sum the channels over the window
`[x-r, x+r] × [y-r, y+r]` clipped to the header dimensions, then the
integer averages (a zero count is a division-by-zero panic; it occurs
exactly when the radius is negative). -/
def blurPixel (d : List (List Pixel)) (width height radius : Int) (x y : Nat) :
    Option Pixel := do
  let ks := (List.range (2 * radius + 1).toNat).map fun t => (t : Int) - radius
  let acc ← ks.foldlM
    (fun acc ky =>
      ks.foldlM
        (fun acc kx => do
          let nx := (x : Int) + kx
          let ny := (y : Int) + ky
          if 0 ≤ nx ∧ nx < width ∧ 0 ≤ ny ∧ ny < height then do
            let p ← gridGet d ny.toNat nx.toNat
            pure (acc.1 + p.red % 256, acc.2.1 + p.green % 256,
              acc.2.2.1 + p.blue % 256, acc.2.2.2 + 1)
          else pure acc)
        acc)
    ((0, 0, 0, 0) : Nat × Nat × Nat × Nat)
  if acc.2.2.2 = 0 then none
  else pure ⟨acc.2.2.1 / acc.2.2.2 % 256, acc.2.1 / acc.2.2.2 % 256,
    acc.1 / acc.2.2.2 % 256⟩

/-- `applyBlur` from `errors.go` in `internal/core`: the scratch buffer is
sized from the signed header fields (`make([][]Pixel, height)` panics for a
negative height; the per-row `make([]Pixel, width)` panics for a negative
width when there is at least one row), then each output pixel is the
clipped window average. -/
def applyBlur (img : BMPImage) (radius : Int) : Option BMPImage :=
  let width : Int := img.infoHeader.width
  let height : Int := img.infoHeader.height
  if height < 0 then none
  else if width < 0 ∧ 0 < height then none
  else
    ((List.range height.toNat).mapM fun y =>
        (List.range width.toNat).mapM fun x =>
          blurPixel img.data width height radius x y).map
      fun d => { img with data := d }

/-- `Filter` from `errors.go` in `internal/core`: dispatch on the filter
name; pixelate uses block size 50 and blur radius 20; an unrecognized name
leaves the image untouched. -/
def Filter (img : BMPImage) (filter : String) : Option BMPImage :=
  if filter = ("blue") then applyColor img 0
  else if filter = ("green") then applyColor img 1
  else if filter = ("red") then applyColor img 2
  else if filter = ("grayscale") then applyColor img 3
  else if filter = ("negative") then applyColor img 4
  else if filter = ("pixelate") then applyPixelate img 50
  else if filter = ("blur") then applyBlur img 20
  else some img

/-! ## Spec-side definitions

Definitions in this section are written from the wording of the
specification / claims (they are the comparison side of the refinement
statements), not from the Go source. -/

/-- The padded row stride of the spec: `ceil(width*3/4)*4`. -/
def specStride (w : Nat) : Nat :=
  (w * 3 + 3) / 4 * 4

/-- The padding invariant of the spec:
`imageDataSize == ceil(width*3/4)*4 * abs(height)`. -/
def paddingInvariant (img : BMPImage) : Prop :=
  img.infoHeader.imageSize =
    specStride img.infoHeader.width.toNat * img.infoHeader.height.natAbs

instance (img : BMPImage) : Decidable (paddingInvariant img) := by
  unfold paddingInvariant
  infer_instance

/-- "All eight validation checks pass" for a buffer: the three checks that
are inline in `ParseBMP` plus the five of `validateHeaders`. -/
def headerChecksPass (b : List Nat) : Prop :=
  54 ≤ b.length ∧ b.getD 0 0 = 66 ∧ b.getD 1 0 = 77 ∧
    40 ≤ (parsedDIB b).size ∧
    validateHeaders (parsedFileHeader b) (parsedDIB b) b.length = none

instance (b : List Nat) : Decidable (headerChecksPass b) := by
  unfold headerChecksPass
  infer_instance

/-- A well-formed image, with exactly the properties that hold of every
image constructed by a successful decode: positive 32-bit width, nonzero
32-bit height, 24 bits per pixel, an `ImageSize` field below `2^32`, and a
pixel grid of `abs(height)` rows of `width` pixels. -/
def WFImage (img : BMPImage) : Prop :=
  0 < img.infoHeader.width ∧ img.infoHeader.width < 2147483648 ∧
    img.infoHeader.height ≠ 0 ∧ -2147483648 ≤ img.infoHeader.height ∧
    img.infoHeader.height < 2147483648 ∧
    img.infoHeader.bitsPerPixel = 24 ∧
    img.infoHeader.imageSize < 4294967296 ∧
    img.header.fileSize < 4294967296 ∧
    img.header.dataOffset < 4294967296 ∧
    img.data.length = img.infoHeader.height.natAbs ∧
    ∀ row ∈ img.data, row.length = img.infoHeader.width.toNat

instance (img : BMPImage) : Decidable (WFImage img) := by
  unfold WFImage
  infer_instance

/-! ## Concrete inputs

Helper constructors for the concrete buffers used in counterexamples and
witnesses. -/

/-- The four little-endian bytes of a 32-bit value. -/
def bytes4 (v : Nat) : List Nat :=
  [v % 256, v / 256 % 256, v / 65536 % 256, v / 16777216 % 256]

/-- A 54-byte BMP header: signature "BM", the given file size, reserved 0,
the given data offset, info-header size 40, the given width and height
words, planes 1, 24 bits per pixel, compression 0, the given image size,
and zero resolutions and palette counts. -/
def mkHeader (fileSize dataOffset w h imageSize : Nat) : List Nat :=
  [66, 77] ++ bytes4 fileSize ++ bytes4 0 ++ bytes4 dataOffset ++ bytes4 40 ++
    bytes4 w ++ bytes4 h ++ [1, 0] ++ [24, 0] ++ bytes4 0 ++ bytes4 imageSize ++
    bytes4 0 ++ bytes4 0 ++ bytes4 0 ++ bytes4 0

/-- A 62-byte top-down BMP: width 1, height -2 (stored as the `uint32`
4294967294), stride 4, image size 8, two pixel rows `(1,1,1)` and
`(2,2,2)` at offsets 54 and 57, data offset 54, file size 62. -/
def sampleTopDownBuf : List Nat :=
  mkHeader 62 54 1 4294967294 8 ++ [1, 1, 1, 2, 2, 2, 0, 0]

/-- The image `ParseBMP` produces from `sampleTopDownBuf`. -/
def sampleTopDown : BMPImage :=
  { header :=
      { signature0 := 66, signature1 := 77, fileSize := 62, reserved := 0
        dataOffset := 54 }
    infoHeader :=
      { size := 40, width := 1, height := -2, planes := 1, bitsPerPixel := 24
        compression := 0, imageSize := 8, xPixelsPerMeter := 0
        yPixelsPerMeter := 0, colorsUsed := 0, colorsImportant := 0 }
    data := [[⟨1, 1, 1⟩], [⟨2, 2, 2⟩]] }

/-- A 54-byte buffer that passes all eight validation checks (signature
"BM", file size 54 = actual length, width 1, height 1, planes 1, 24 bpp,
no compression, image size 4 = stride) but whose data offset 1000 points
far outside the buffer. -/
def oobBuf : List Nat :=
  mkHeader 54 1000 1 1 4

/-- The gray value of the claim: `round(0.2126*R + 0.7152*G + 0.0722*B)`
with exact decimal weights, rounded to the nearest integer (a half rounds
up): `(2126*R + 7152*G + 722*B + 5000) / 10000` over the naturals. -/
def grayPixelSpec (p : Pixel) : Nat :=
  (2126 * p.red + 7152 * p.green + 722 * p.blue + 5000) / 10000

/-- The per-pixel property C8 asserts of a grayscale run: every pixel of
the input grid reappears with all three channels equal to the rounded
BT.709 luma. -/
def grayClaim (img img' : BMPImage) : Prop :=
  ∀ y x p, gridGet img.data y x = some p →
    gridGet img'.data y x =
      some ⟨grayPixelSpec p, grayPixelSpec p, grayPixelSpec p⟩

/-- A 1×1 image whose pixel has channel values `R = 0`, `G = 1`, `B = 0`. -/
def sampleGreen1 : BMPImage :=
  { header :=
      { signature0 := 66, signature1 := 77, fileSize := 58, reserved := 0
        dataOffset := 54 }
    infoHeader :=
      { size := 40, width := 1, height := 1, planes := 1, bitsPerPixel := 24
        compression := 0, imageSize := 4, xPixelsPerMeter := 0
        yPixelsPerMeter := 0, colorsUsed := 0, colorsImportant := 0 }
    data := [[⟨0, 1, 0⟩]] }

/-- `sampleGreen1` after the code's grayscale filter: the float64 luma of
`(R,G,B) = (0,1,0)` is about `0.7152` and the `byte(...)` conversion
truncates it to `0`. -/
def sampleGreen1Gray : BMPImage :=
  { sampleGreen1 with data := [[⟨0, 0, 0⟩]] }

/-- A 1×1 all-white image. -/
def sampleWhite : BMPImage :=
  { sampleGreen1 with data := [[⟨255, 255, 255⟩]] }

/-- `sampleWhite` after the code's grayscale filter: the float64 luma of
white comes out just below 255 and truncates to 254. -/
def sampleWhiteGray : BMPImage :=
  { sampleGreen1 with data := [[⟨254, 254, 254⟩]] }

/-- A 70-byte bottom-up BMP: width 1, height 4, stride 4, image size 16. -/
def tallBuf : List Nat :=
  mkHeader 70 54 1 4 16 ++ [1, 1, 1, 2, 2, 2, 3, 3, 3, 4, 4, 4, 0, 0, 0, 0]

/-- The image `ParseBMP` produces from `tallBuf`. -/
def tallImg : BMPImage :=
  { header :=
      { signature0 := 66, signature1 := 77, fileSize := 70, reserved := 0
        dataOffset := 54 }
    infoHeader :=
      { size := 40, width := 1, height := 4, planes := 1, bitsPerPixel := 24
        compression := 0, imageSize := 16, xPixelsPerMeter := 0
        yPixelsPerMeter := 0, colorsUsed := 0, colorsImportant := 0 }
    data := [[⟨1, 1, 1⟩], [⟨2, 2, 2⟩], [⟨3, 3, 3⟩], [⟨4, 4, 4⟩]] }

/-- `tallImg` rotated right: 4 wide, 1 tall, `ImageSize` still 16 although
the padded size of a 4×1 grid is 12. -/
def tallRot : BMPImage :=
  { header := tallImg.header
    infoHeader :=
      { size := 40, width := 4, height := 1, planes := 1, bitsPerPixel := 24
        compression := 0, imageSize := 16, xPixelsPerMeter := 0
        yPixelsPerMeter := 0, colorsUsed := 0, colorsImportant := 0 }
    data := [[⟨1, 1, 1⟩, ⟨2, 2, 2⟩, ⟨3, 3, 3⟩, ⟨4, 4, 4⟩]] }

/-- `tallImg` mirrored vertically (rows reversed). -/
def tallImgV : BMPImage :=
  { tallImg with data := [[⟨4, 4, 4⟩], [⟨3, 3, 3⟩], [⟨2, 2, 2⟩], [⟨1, 1, 1⟩]] }

/-- `sampleTopDown` after a full-bounds crop: the rows come back reversed. -/
def sampleTopDownCropped : BMPImage :=
  { sampleTopDown with data := [[⟨2, 2, 2⟩], [⟨1, 1, 1⟩]] }

/-- `sampleTopDown` rotated right: a single row, header height `1`. -/
def sampleTopDownR : BMPImage :=
  { sampleTopDown with
    infoHeader := { sampleTopDown.infoHeader with width := 2, height := 1 }
    data := [[⟨1, 1, 1⟩, ⟨2, 2, 2⟩]] }

/-- `sampleTopDownR` rotated left: the pixels of `sampleTopDown` return but
the header height is now `2`, not the original `-2`. -/
def sampleTopDownRL : BMPImage :=
  { sampleTopDown with
    infoHeader := { sampleTopDown.infoHeader with width := 1, height := 2 }
    data := [[⟨1, 1, 1⟩], [⟨2, 2, 2⟩]] }

/-- The pixel whose blue, green and red bytes sit at offsets `off`,
`off + 1`, `off + 2` of the buffer, as the pixel loop of `ParseBMP` builds
it (`Pixel{Blue: b[o], Green: b[o+1], Red: b[o+2]}`). -/
def pixelAt (b : List Nat) (off : Nat) : Pixel :=
  ⟨b.getD off 0, b.getD (off + 1) 0, b.getD (off + 2) 0⟩

/-- Claim-side: disk row `y` of a buffer whose pixel data starts at `dOff`
with rows `stride` bytes apart and pixels 3 bytes apart within a row. -/
def diskRow (b : List Nat) (dOff stride w y : Nat) : List Pixel :=
  (List.range w).map fun x => pixelAt b (dOff + y * stride + x * 3)

/-- A 78-byte bottom-up BMP: width 4, height 2, stride 12 (no padding),
disk row 0 all `(1,1,1)` and disk row 1 all `(2,2,2)`. -/
def c3Buf : List Nat :=
  mkHeader 78 54 4 2 24 ++ (List.replicate 12 1 ++ List.replicate 12 2)

/-- The image `ParseBMP` produces from `c3Buf`: the rows in file order. -/
def c3Img : BMPImage :=
  { header :=
      { signature0 := 66, signature1 := 77, fileSize := 78, reserved := 0
        dataOffset := 54 }
    infoHeader :=
      { size := 40, width := 4, height := 2, planes := 1, bitsPerPixel := 24
        compression := 0, imageSize := 24, xPixelsPerMeter := 0
        yPixelsPerMeter := 0, colorsUsed := 0, colorsImportant := 0 }
    data := [List.replicate 4 ⟨1, 1, 1⟩, List.replicate 4 ⟨2, 2, 2⟩] }

/-- Claim-side (from the claim's wording, in exact integer arithmetic): the
first failing check of the claim's eight-step list; check 8 compares the
declared image size against `ceil(width*3/4)*4 * abs(height)` computed
without overflow. -/
def specFirstError (b : List Nat) : Option ParseErr :=
  if b.length < 54 then some .invalidBMP
  else if ¬(b.getD 0 0 = 66 ∧ b.getD 1 0 = 77) then some .invalidFileType
  else if (parsedDIB b).size < 40 then some .invalidHeaderSize
  else if (parsedFileHeader b).fileSize ≠ b.length then some .corruptFile
  else if (parsedDIB b).width ≤ 0 ∨ (parsedDIB b).height = 0 then
    some .nonPositiveDimensions
  else if (parsedDIB b).planes ≠ 1 ∨ (parsedDIB b).bitsPerPixel ≠ 24 then
    some .unsupportedFormat
  else if (parsedDIB b).compression ≠ 0 then some .unsupportedCompression
  else if (parsedDIB b).imageSize ≠
      specStride (parsedDIB b).width.toNat * (parsedDIB b).height.natAbs then
    some .invalidImageData
  else none

/-- Amended-claim side: the same eight checks in the same order, but with
checks 4 and 8 in the `uint32` arithmetic the code actually uses (the file
length reduced mod `2^32`; the expected image size wrapped as in
`expectedImageSize`). -/
def specFirstErrorW (b : List Nat) : Option ParseErr :=
  if b.length < 54 then some .invalidBMP
  else if ¬(b.getD 0 0 = 66 ∧ b.getD 1 0 = 77) then some .invalidFileType
  else if (parsedDIB b).size < 40 then some .invalidHeaderSize
  else validateHeaders (parsedFileHeader b) (parsedDIB b) b.length

/-- A 54-byte header-only buffer: width `2^31 - 1`, height 2, image size 0,
file size 54.  The exact-arithmetic expected image size is huge, but the
code's `uint32` computation wraps to 0, so all eight checks pass. -/
def c2Buf : List Nat :=
  mkHeader 54 54 2147483647 2 0

/-- Channel `c` of a pixel, in the B, G, R order the codec uses on disk. -/
def pixelChannel (p : Pixel) : Nat → Nat
  | 0 => p.blue
  | 1 => p.green
  | _ => p.red

/-- The 54 header bytes `SerializeBMP` stores, in order. -/
def headerBytes (img : BMPImage) : List Nat :=
  [(img.header.signature0 % 256 + 256 * (img.header.signature1 % 256)) % 256,
   (img.header.signature0 % 256 + 256 * (img.header.signature1 % 256)) / 256 % 256,
   img.header.fileSize % 256, img.header.fileSize / 256 % 256,
   img.header.fileSize / 65536 % 256, img.header.fileSize / 16777216 % 256,
   img.header.reserved % 256, img.header.reserved / 256 % 256,
   img.header.reserved / 65536 % 256, img.header.reserved / 16777216 % 256,
   img.header.dataOffset % 256, img.header.dataOffset / 256 % 256,
   img.header.dataOffset / 65536 % 256, img.header.dataOffset / 16777216 % 256,
   img.infoHeader.size % 256, img.infoHeader.size / 256 % 256,
   img.infoHeader.size / 65536 % 256, img.infoHeader.size / 16777216 % 256,
   uint32OfInt img.infoHeader.width % 256, uint32OfInt img.infoHeader.width / 256 % 256,
   uint32OfInt img.infoHeader.width / 65536 % 256,
   uint32OfInt img.infoHeader.width / 16777216 % 256,
   uint32OfInt img.infoHeader.height % 256, uint32OfInt img.infoHeader.height / 256 % 256,
   uint32OfInt img.infoHeader.height / 65536 % 256,
   uint32OfInt img.infoHeader.height / 16777216 % 256,
   img.infoHeader.planes % 256, img.infoHeader.planes / 256 % 256,
   img.infoHeader.bitsPerPixel % 256, img.infoHeader.bitsPerPixel / 256 % 256,
   img.infoHeader.compression % 256, img.infoHeader.compression / 256 % 256,
   img.infoHeader.compression / 65536 % 256, img.infoHeader.compression / 16777216 % 256,
   img.infoHeader.imageSize % 256, img.infoHeader.imageSize / 256 % 256,
   img.infoHeader.imageSize / 65536 % 256, img.infoHeader.imageSize / 16777216 % 256,
   uint32OfInt img.infoHeader.xPixelsPerMeter % 256,
   uint32OfInt img.infoHeader.xPixelsPerMeter / 256 % 256,
   uint32OfInt img.infoHeader.xPixelsPerMeter / 65536 % 256,
   uint32OfInt img.infoHeader.xPixelsPerMeter / 16777216 % 256,
   uint32OfInt img.infoHeader.yPixelsPerMeter % 256,
   uint32OfInt img.infoHeader.yPixelsPerMeter / 256 % 256,
   uint32OfInt img.infoHeader.yPixelsPerMeter / 65536 % 256,
   uint32OfInt img.infoHeader.yPixelsPerMeter / 16777216 % 256,
   img.infoHeader.colorsUsed % 256, img.infoHeader.colorsUsed / 256 % 256,
   img.infoHeader.colorsUsed / 65536 % 256, img.infoHeader.colorsUsed / 16777216 % 256,
   img.infoHeader.colorsImportant % 256, img.infoHeader.colorsImportant / 256 % 256,
   img.infoHeader.colorsImportant / 65536 % 256,
   img.infoHeader.colorsImportant / 16777216 % 256]

/-- Claim-side (from the claim's wording): the serialized buffer lays the
grid out row-major at the padded stride — row `y` starting at
`DataOffset + y*stride` — with the bytes after each row's `width*3` pixel
bytes, up to the stride, zero. -/
def specPaddedLayout (img : BMPImage) (out : List Nat) : Prop :=
  ∀ y < img.infoHeader.height.natAbs,
    (∀ x < img.infoHeader.width.toNat, ∀ c < 3,
      out.getD (img.header.dataOffset +
        y * specStride img.infoHeader.width.toNat + x * 3 + c) 0 =
        pixelChannel ((img.data.getD y []).getD x default) c % 256) ∧
    ∀ k < specStride img.infoHeader.width.toNat,
      img.infoHeader.width.toNat * 3 ≤ k →
      out.getD (img.header.dataOffset +
        y * specStride img.infoHeader.width.toNat + k) 0 = 0

instance (img : BMPImage) (out : List Nat) : Decidable (specPaddedLayout img out) := by
  unfold specPaddedLayout
  infer_instance

/-- A 57-byte BMP: width 1, height 1, stride 4, image size 4, file size 57
— but only 3 pixel bytes; the recorded file size matches the length, so it
decodes. -/
def c1Buf : List Nat :=
  mkHeader 57 54 1 1 4 ++ [5, 6, 7]

/-- The image `ParseBMP` produces from `c1Buf`. -/
def c1Img : BMPImage :=
  { header :=
      { signature0 := 66, signature1 := 77, fileSize := 57, reserved := 0
        dataOffset := 54 }
    infoHeader :=
      { size := 40, width := 1, height := 1, planes := 1, bitsPerPixel := 24
        compression := 0, imageSize := 4, xPixelsPerMeter := 0
        yPixelsPerMeter := 0, colorsUsed := 0, colorsImportant := 0 }
    data := [[⟨5, 6, 7⟩]] }

/-- What `SerializeBMP` produces from `c1Img`: 58 bytes (the padded total),
while the `FileSize` field still says 57. -/
def c1Out : List Nat :=
  mkHeader 57 54 1 1 4 ++ [5, 6, 7, 0]

/-- A 58-byte BMP whose length equals `DataOffset + stride*height`. -/
def c1WBuf : List Nat :=
  mkHeader 58 54 1 1 4 ++ [5, 6, 7, 0]

/-- The image `ParseBMP` produces from `c1WBuf`. -/
def c1WImg : BMPImage :=
  { header :=
      { signature0 := 66, signature1 := 77, fileSize := 58, reserved := 0
        dataOffset := 54 }
    infoHeader :=
      { size := 40, width := 1, height := 1, planes := 1, bitsPerPixel := 24
        compression := 0, imageSize := 4, xPixelsPerMeter := 0
        yPixelsPerMeter := 0, colorsUsed := 0, colorsImportant := 0 }
    data := [[⟨5, 6, 7⟩]] }

/-- Decoding `sampleTopDownBuf` yields `sampleTopDown`: decode accepts
top-down (negative-height) files. -/
theorem parse_sampleTopDownBuf : parseBMP sampleTopDownBuf = .ok sampleTopDown := by
  rfl

/-! ## C10: blur on a top-down (negative-height) image panics -/

/-- C10: for every image whose stored height is negative (in particular
every decoded top-down image), the blur filter panics: `applyBlur` sizes
its scratch buffer from the signed header height, so `make` receives a
negative length.  Both the direct call with the dispatcher's radius 20 and
the `Filter` dispatch on "blur" fail. -/
theorem blur_fails_on_negative_height (img : BMPImage)
    (hneg : img.infoHeader.height < 0) :
    applyBlur img 20 = none ∧ Filter img ("blur") = none := by
  constructor
  · simp [applyBlur, hneg]
  · simp [Filter, applyBlur, hneg]

/-- Witness for C10 at the concrete decoded top-down image
`sampleTopDown`: its height is negative and blur panics on it. -/
theorem blur_fails_on_negative_height_witness :
    parseBMP sampleTopDownBuf = .ok sampleTopDown ∧
      sampleTopDown.infoHeader.height < 0 ∧
      applyBlur sampleTopDown 20 = none ∧
      Filter sampleTopDown ("blur") = none :=
  ⟨parse_sampleTopDownBuf, by decide,
    blur_fails_on_negative_height sampleTopDown (by decide)⟩

/-! ## C9: validation never bounds the pixel region -/

/-- C9: `oobBuf` passes every validation check, yet the pixel loop indexes
past the end of the buffer (the first read is at offset 1000 of a 54-byte
buffer), so `ParseBMP` panics instead of returning an image: validation
never checks that `DataOffset + width*3*abs(height)` fits in the buffer,
and decoding is not total over validated inputs. -/
theorem parse_panics_after_validation :
    headerChecksPass oobBuf ∧ parseBMP oobBuf = .error .panic := by
  constructor
  · decide
  · rfl

/-! ## List lemmas for `mapM` over `Option` -/

/-- A successful `mapM` maps index by index. -/
theorem mapM_getElem? {α β : Type} {f : α → Option β} :
    ∀ {l : List α} {l' : List β}, l.mapM f = some l' →
      ∀ i : Nat, l'[i]? = (l[i]?).bind f := by
  intro l
  induction l with
  | nil =>
    intro l' h i
    simp only [List.mapM_nil, pure, Option.some.injEq] at h
    subst h
    simp
  | cons a t ih =>
    intro l' h i
    rw [List.mapM_cons] at h
    match ha : f a, ht : t.mapM f with
    | some b, some bs =>
      rw [ha, ht] at h
      simp at h
      subst h
      cases i with
      | zero => simpa using ha.symm
      | succ j => simpa using ih ht j
    | some b, none => rw [ha, ht] at h; simp at h
    | none, _ => rw [ha] at h; simp at h

/-- A successful `mapM` preserves the length. -/
theorem mapM_some_length {α β : Type} {f : α → Option β} :
    ∀ {l : List α} {l' : List β}, l.mapM f = some l' → l'.length = l.length := by
  intro l
  induction l with
  | nil =>
    intro l' h
    simp only [List.mapM_nil, pure, Option.some.injEq] at h
    subst h
    rfl
  | cons a t ih =>
    intro l' h
    rw [List.mapM_cons] at h
    match ha : f a, ht : t.mapM f with
    | some b, some bs =>
      rw [ha, ht] at h
      simp at h
      subst h
      simpa using ih ht
    | some b, none => rw [ha, ht] at h; simp at h
    | none, _ => rw [ha] at h; simp at h

/-! ## C8: the grayscale filter truncates, the spec rounds -/

/-- Counterexample to C8: on the pixel `(R,G,B) = (0,1,0)` the code
produces gray `0` (truncation of `0.7152`), while the claim's
`round(0.2126*R + 0.7152*G + 0.0722*B)` is `1`. -/
theorem grayscale_not_rounded :
    Filter sampleGreen1 ("grayscale") = some sampleGreen1Gray ∧
      ¬ grayClaim sampleGreen1 sampleGreen1Gray := by
  constructor
  · rfl
  · intro h
    have h0 := h 0 0 ⟨0, 1, 0⟩ rfl
    rw [show gridGet sampleGreen1Gray.data 0 0 = some ⟨0, 0, 0⟩ from rfl] at h0
    have : grayPixelSpec ⟨0, 1, 0⟩ = 1 := by decide
    rw [this] at h0
    exact absurd h0 (by decide)

/-- A successful `applyColorRow` maps entries below the loop bound `w`
through the per-pixel switch. -/
theorem applyColorRow_getElem? {color w : Nat} {row row' : List Pixel}
    (h : applyColorRow color w row = some row') {x : Nat} (hx : x < w)
    (hxr : x < row.length) :
    row'[x]? = (row[x]?).map (applyColorPixel color) := by
  unfold applyColorRow at h
  split_ifs at h with hcon
  cases h
  have hlen : x < (List.map (applyColorPixel color) (List.take w row)).length := by
    simp only [List.length_map, List.length_take]
    exact lt_min hx hxr
  rw [List.getElem?_append_left hlen, List.getElem?_map,
    List.getElem?_take_of_lt hx]

/-- A successful `applyColor` maps every in-bounds grid entry (within the
first-row width) through the per-pixel switch. -/
theorem applyColor_gridGet {img img' : BMPImage} {color : Nat}
    (hrun : applyColor img color = some img') {y x : Nat}
    (hx : x < (img.data.headD []).length) {p : Pixel}
    (hp : gridGet img.data y x = some p) :
    gridGet img'.data y x = some (applyColorPixel color p) := by
  unfold applyColor at hrun
  split_ifs at hrun with hemp
  cases hm : img.data.mapM (applyColorRow color (img.data.headD []).length) with
  | none => rw [hm] at hrun; simp at hrun
  | some d' =>
    rw [hm, Option.map_some'] at hrun
    injection hrun with hrun
    subst hrun
    unfold gridGet at hp ⊢
    have hrow := mapM_getElem? hm y
    cases hy : img.data[y]? with
    | none => rw [hy] at hp; simp at hp
    | some row =>
      rw [hy] at hp
      simp only [Option.some_bind] at hp
      cases hv : applyColorRow color (img.data.headD []).length row with
      | none =>
        rw [hy, Option.some_bind, hv] at hrow
        have hlen := mapM_some_length hm
        have hylt : y < img.data.length := (List.getElem?_eq_some_iff.mp hy).1
        rw [List.getElem?_eq_none_iff] at hrow
        omega
      | some row' =>
        rw [hy, Option.some_bind, hv] at hrow
        show (d'[y]?.bind fun row => row[x]?) = some (applyColorPixel color p)
        rw [hrow, Option.some_bind]
        have hxr : x < row.length := by
          rcases List.getElem?_eq_some_iff.mp hp with ⟨hlt, _⟩
          exact hlt
        rw [applyColorRow_getElem? hv hx hxr, hp]
        rfl

/-- C8 amended: after the grayscale filter, every pixel within the
processed width has all three channels equal to
`trunc(float64(R)*0.2126 + float64(G)*0.7152 + float64(B)*0.0722)`: the
IEEE-754 double computation whose final `byte(...)` conversion truncates
toward zero (not the spec's rounding to nearest). -/
theorem grayscale_truncated_luma (img img' : BMPImage)
    (hrun : Filter img ("grayscale") = some img') (y x : Nat) (p : Pixel)
    (hx : x < (img.data.headD []).length) (hp : gridGet img.data y x = some p) :
    gridGet img'.data y x =
      some ⟨grayValue p, grayValue p, grayValue p⟩ := by
  rw [show Filter img ("grayscale") = applyColor img 3 from by
    simp [Filter]] at hrun
  have h := applyColor_gridGet hrun hx hp
  rw [h]
  rfl

/-- Witness for the amended C8 at a concrete image: grayscale maps the
white pixel to `254` (the truncated float64 luma), exactly as the amended
claim computes it. -/
theorem grayscale_truncated_luma_witness :
    Filter sampleWhite ("grayscale") = some sampleWhiteGray ∧
      gridGet sampleWhiteGray.data 0 0 = some ⟨254, 254, 254⟩ := by
  constructor
  · rfl
  · have h := grayscale_truncated_luma sampleWhite sampleWhiteGray rfl 0 0
      ⟨255, 255, 255⟩ (by decide) rfl
    rw [h]
    rfl

/-! ## Shared arithmetic and list lemmas for the transform claims -/

/-- `mapM` succeeds and maps pointwise when `f` succeeds on every element. -/
theorem mapM_eq_some_of_forall {α β : Type} {f : α → Option β} {g : α → β} :
    ∀ {l : List α}, (∀ a ∈ l, f a = some (g a)) → l.mapM f = some (l.map g) := by
  intro l
  induction l with
  | nil => intro _; rfl
  | cons a t ih =>
    intro hall
    rw [List.mapM_cons, hall a (List.mem_cons_self a t), ih fun a ha =>
      hall a (List.mem_cons_of_mem _ ha)]
    rfl

/-- Reading every index of a list back in order reproduces the list. -/
theorem map_getD_range {α : Type} (d : α) :
    ∀ l : List α, (List.range l.length).map (fun i => l.getD i d) = l := by
  intro l
  induction l with
  | nil => rfl
  | cons a t ih =>
    rw [List.length_cons, List.range_succ_eq_map, List.map_cons, List.map_map]
    refine congrArg₂ _ rfl ?_
    have : ((fun i => (a :: t).getD i d) ∘ fun i => i + 1) =
        fun i => t.getD i d := by
      funext i
      rfl
    rw [this, ih]

/-- `int32(x)` is the identity on the `int32` range. -/
theorem int32OfInt_eq_self {i : Int} (h0 : -2147483648 ≤ i) (h1 : i < 2147483648) :
    int32OfInt i = i := by
  unfold int32OfInt uint32OfInt int32OfUInt32
  split_ifs with hlt <;> omega

/-- `uint32(x)` is the identity on nonnegative values below `2^32`. -/
theorem uint32OfInt_eq_toNat {i : Int} (h0 : 0 ≤ i) (h1 : i < 4294967296) :
    uint32OfInt i = i.toNat := by
  unfold uint32OfInt
  omega

/-- The serializer's `(w*3 + 3) &^ 3` (as `Int.fdiv`) is the spec stride on
nonnegative widths. -/
theorem fdiv_stride_eq_specStride (w : Nat) :
    ((w : Int) * 3 + 3).fdiv 4 * 4 = (specStride w : Int) := by
  unfold specStride
  have h1 : ((w : Int) * 3 + 3) = ((w * 3 + 3 : Nat) : Int) := by
    push_cast
    ring
  have h2 : ((4 : Int)) = ((4 : Nat) : Int) := rfl
  rw [h1, h2, ← Int.ofNat_fdiv]
  push_cast
  ring

/-- `specStride` is monotone. -/
theorem specStride_mono {a b : Nat} (h : a ≤ b) : specStride a ≤ specStride b := by
  unfold specStride
  have h3 : a * 3 + 3 ≤ b * 3 + 3 := by omega
  exact Nat.mul_le_mul_right 4 (Nat.div_le_div_right h3)

/-! ## Header preservation of the pixel-only transforms -/

/-- `applyColor` never touches the headers. -/
theorem applyColor_headers {img img' : BMPImage} {c : Nat}
    (h : applyColor img c = some img') :
    img'.header = img.header ∧ img'.infoHeader = img.infoHeader := by
  unfold applyColor at h
  split_ifs at h
  cases hm : img.data.mapM (applyColorRow c (img.data.headD []).length) with
  | none => rw [hm] at h; simp at h
  | some d =>
    rw [hm, Option.map_some'] at h
    injection h with h
    subst h
    exact ⟨rfl, rfl⟩

/-- `applyPixelate` never touches the headers. -/
theorem applyPixelate_headers {img img' : BMPImage} {bs : Nat}
    (h : applyPixelate img bs = some img') :
    img'.header = img.header ∧ img'.infoHeader = img.infoHeader := by
  simp only [applyPixelate] at h
  split_ifs at h
  cases hm : (((List.range ((img.data.length + bs - 1) / bs)).flatMap fun i =>
      (List.range (((img.data.headD []).length + bs - 1) / bs)).map fun j =>
        (i * bs, j * bs)).foldlM
      (fun d (yx : Nat × Nat) => do
        let p ← avgColorBlock d yx.2 yx.1 bs
        fillBlock d yx.2 yx.1 bs p)
      img.data) with
  | none => rw [hm] at h; simp at h
  | some d =>
    rw [hm, Option.map_some'] at h
    injection h with h
    subst h
    exact ⟨rfl, rfl⟩

/-- `applyBlur` never touches the headers. -/
theorem applyBlur_headers {img img' : BMPImage} {r : Int}
    (h : applyBlur img r = some img') :
    img'.header = img.header ∧ img'.infoHeader = img.infoHeader := by
  simp only [applyBlur] at h
  split_ifs at h
  cases hm : ((List.range img.infoHeader.height.toNat).mapM fun y =>
      (List.range img.infoHeader.width.toNat).mapM fun x =>
        blurPixel img.data img.infoHeader.width img.infoHeader.height r x y) with
  | none => rw [hm] at h; simp at h
  | some d =>
    rw [hm, Option.map_some'] at h
    injection h with h
    subst h
    exact ⟨rfl, rfl⟩

/-- `MirrorImage` never touches the headers. -/
theorem mirrorImage_headers {img img' : BMPImage} {dir : String}
    (h : mirrorImage img dir = some img') :
    img'.header = img.header ∧ img'.infoHeader = img.infoHeader := by
  simp only [mirrorImage] at h
  split_ifs at h with h0 h1 h2
  · cases hm : (((List.range img.data.length).flatMap fun y =>
        (List.range ((img.data.headD []).length / 2)).map fun x =>
          (y, x, y, (img.data.headD []).length - 1 - x)).foldlM
        (fun d q => swapPix d q.1 q.2.1 q.2.2.1 q.2.2.2) img.data) with
    | none => rw [hm] at h; simp at h
    | some d =>
      rw [hm, Option.map_some'] at h
      injection h with h
      subst h
      exact ⟨rfl, rfl⟩
  · cases hm : (((List.range (img.data.length / 2)).flatMap fun y =>
        (List.range (img.data.headD []).length).map fun x =>
          (y, x, img.data.length - 1 - y, x)).foldlM
        (fun d q => swapPix d q.1 q.2.1 q.2.2.1 q.2.2.2) img.data) with
    | none => rw [hm] at h; simp at h
    | some d =>
      rw [hm, Option.map_some'] at h
      injection h with h
      subst h
      exact ⟨rfl, rfl⟩
  · injection h with h
    subst h
    exact ⟨rfl, rfl⟩

/-- `Filter` never touches the headers, whatever the filter string is. -/
theorem Filter_headers {img img' : BMPImage} {f : String}
    (h : Filter img f = some img') :
    img'.header = img.header ∧ img'.infoHeader = img.infoHeader := by
  unfold Filter at h
  split_ifs at h
  any_goals exact applyColor_headers h
  · exact applyPixelate_headers h
  · exact applyBlur_headers h
  · injection h with h
    subst h
    exact ⟨rfl, rfl⟩

/-- The header fields `Rotate` produces: `ImageSize` is left untouched and
the width/height fields are set from the (swapped) grid dimensions. -/
theorem rotate_fields {img img' : BMPImage} {dir : Int}
    (h : rotate img dir = some img') :
    img'.header = img.header ∧
      img'.infoHeader =
        { img.infoHeader with
          height := int32OfInt ((img.data.headD []).length : Int)
          width := int32OfInt (img.data.length : Int) } := by
  simp only [rotate] at h
  by_cases hemp : img.data.isEmpty
  · rw [if_pos hemp] at h
    exact absurd h (by simp)
  · rw [if_neg hemp, Option.map_eq_some'] at h
    obtain ⟨d, _, himg⟩ := h
    subst himg
    exact ⟨rfl, rfl⟩

/-! ## C5: the padding invariant across the transforms -/

/-- A successful `cropCopy` call (reached through `Crop`'s two argument
checks, whose conclusions enter as the two bound hypotheses) reestablishes
the padding invariant: the `ImageSize` field is recomputed as the padded
stride of the new width times the new height. -/
theorem cropCopy_invariant {img img' : BMPImage} {ox oy w h : Int}
    (hwf : WFImage img) (hinv : paddingInvariant img)
    (hc : cropCopy img ox oy w h = some img')
    (hwb : ox + w ≤ img.infoHeader.width)
    (hhb : oy + h ≤ (img.infoHeader.height.natAbs : Int))
    (hw0 : w ≠ 0) :
    paddingInvariant img' := by
  obtain ⟨hwpos, hwlt, hh0, hhge, hhlt, hbpp, hisz, _, _, hdlen, hrows⟩ := hwf
  simp only [cropCopy] at hc
  by_cases hguard : h < 0 ∨ w < 0 ∧ 0 < h
  · rw [if_pos hguard] at hc
    exact absurd hc (by simp)
  rw [if_neg hguard, Option.map_eq_some'] at hc
  push_neg at hguard
  obtain ⟨hhn, hwor⟩ := hguard
  obtain ⟨d, hd, himg⟩ := hc
  subst himg
  unfold paddingInvariant
  simp only [hbpp]
  rcases eq_or_lt_of_le hhn with h0 | hpos
  · rw [← h0]
    simp [uint32OfInt, int32OfInt, int32OfUInt32]
  · have hwn : 0 ≤ w := by
      rcases Int.lt_or_le w 0 with hw | hw
      · have := hwor hw
        omega
      · exact hw
    have hwgt : 0 < w := by omega
    -- first read of the copy loop succeeds, pinning the offsets
    have hlen := mapM_some_length hd
    rw [List.length_range] at hlen
    have h0d := mapM_getElem? hd 0
    rw [List.getElem?_range (by omega : (0 : Nat) < h.toNat)] at h0d
    cases hrow0 : d[0]? with
    | none =>
      rw [List.getElem?_eq_none_iff] at hrow0
      omega
    | some row0 =>
      rw [hrow0, Option.some_bind] at h0d
      have h00 := mapM_getElem? h0d.symm 0
      have hrlen := mapM_some_length h0d.symm
      rw [List.length_range] at hrlen
      rw [List.getElem?_range (by omega : (0 : Nat) < w.toNat)] at h00
      cases hp0 : row0[0]? with
      | none =>
        rw [List.getElem?_eq_none_iff] at hp0
        omega
      | some p0 =>
        rw [hp0, Option.some_bind] at h00
        have hread : gridGetI img.data
            (if ¬img.infoHeader.height < 0 then oy + ((0 : Nat) : Int)
              else (img.infoHeader.height.natAbs : Int) - 1 - (oy + ((0 : Nat) : Int)))
            (ox + ((0 : Nat) : Int)) = some p0 := h00.symm
        unfold gridGetI at hread
        by_cases hok : 0 ≤ (if ¬img.infoHeader.height < 0 then oy + ((0 : Nat) : Int)
            else (img.infoHeader.height.natAbs : Int) - 1 - (oy + ((0 : Nat) : Int))) ∧
            0 ≤ ox + ((0 : Nat) : Int)
        case neg =>
          rw [if_neg hok] at hread
          exact absurd hread (by simp)
        obtain ⟨hsr, hox⟩ := hok
        rw [if_pos ⟨hsr, hox⟩] at hread
        unfold gridGet at hread
        have hsrlt : (if ¬img.infoHeader.height < 0 then oy + ((0 : Nat) : Int)
            else (img.infoHeader.height.natAbs : Int) - 1 - (oy + ((0 : Nat) : Int))).toNat <
            img.data.length := by
          by_contra hge
          rw [Nat.not_lt] at hge
          rw [List.getElem?_eq_none hge, Option.none_bind] at hread
          exact Option.noConfusion hread
        have hoy : 0 ≤ oy := by
          rw [hdlen] at hsrlt
          by_cases htd : img.infoHeader.height < 0
          · rw [if_neg (by simpa using htd)] at hsr hsrlt
            omega
          · rw [if_pos htd] at hsr hsrlt
            omega
        have hox' : 0 ≤ ox := by
          simpa using hox
        -- bounds on the new dimensions
        have hwle : w ≤ img.infoHeader.width := by omega
        have hhle : h ≤ (img.infoHeader.height.natAbs : Int) := by omega
        -- the recomputed image size, as a natural
        have hw' : w = ((w.toNat : Nat) : Int) := by omega
        have hstride : (w * ((24 / 8 : Nat) : Int) + 3).fdiv 4 * 4 =
            (specStride w.toNat : Int) := by
          rw [show ((24 / 8 : Nat) : Int) = 3 from rfl]
          rw [hw', ← fdiv_stride_eq_specStride]
          norm_num
        have hsz : (w * ((24 / 8 : Nat) : Int) + 3).fdiv 4 * 4 * h =
            ((specStride w.toNat * h.toNat : Nat) : Int) := by
          rw [hstride]
          push_cast
          rw [Int.toNat_of_nonneg hhn]
        have hbound : specStride w.toNat * h.toNat < 4294967296 := by
          have hm1 : specStride w.toNat ≤ specStride img.infoHeader.width.toNat :=
            specStride_mono (by omega)
          have hm2 : h.toNat ≤ img.infoHeader.height.natAbs := by omega
          calc specStride w.toNat * h.toNat
              ≤ specStride img.infoHeader.width.toNat * img.infoHeader.height.natAbs :=
                Nat.mul_le_mul hm1 hm2
            _ = img.infoHeader.imageSize := hinv.symm
            _ < 4294967296 := hisz
        rw [hsz, uint32OfInt_eq_toNat (by positivity) (by exact_mod_cast hbound),
          Int.toNat_ofNat]
        rw [int32OfInt_eq_self (by omega) (by omega)]
        by_cases htd : img.infoHeader.height < 0
        · rw [if_pos htd, int32OfInt_eq_self (by omega) (by omega)]
          congr 1
          omega
        · rw [if_neg htd, int32OfInt_eq_self (by omega) (by omega)]
          congr 1
          omega

/-- The padding invariant only looks at the info header. -/
theorem paddingInvariant_of_infoHeader_eq {a b : BMPImage}
    (h : b.infoHeader = a.infoHeader) (hi : paddingInvariant a) :
    paddingInvariant b := by
  unfold paddingInvariant at hi ⊢
  rw [h]
  exact hi

/-- A successful `Crop` reestablishes the padding invariant: its argument
checks bound the new dimensions and `cropCopy` recomputes `ImageSize`. -/
theorem crop_keeps_padding_invariant (img img' : BMPImage) (opts : CropInfo)
    (hwf : WFImage img) (hinv : paddingInvariant img)
    (h : crop img opts = some (Except.ok img')) :
    paddingInvariant img' := by
  simp only [crop] at h
  by_cases h1 : opts.offsetX ≥ img.infoHeader.width ∨
      opts.offsetY ≥ (img.infoHeader.height.natAbs : Int)
  · rw [if_pos h1] at h
    exact absurd h (by simp)
  rw [if_neg h1] at h
  push_neg at h1
  by_cases h2 : opts.offsetX +
        (if opts.width = 0 then img.infoHeader.width - opts.offsetX
          else opts.width) > img.infoHeader.width ∨
      opts.offsetY +
        (if opts.height = 0 then (img.infoHeader.height.natAbs : Int) - opts.offsetY
          else opts.height) > (img.infoHeader.height.natAbs : Int)
  · rw [if_pos h2] at h
    exact absurd h (by simp)
  rw [if_neg h2] at h
  push_neg at h2
  rw [Option.map_eq_some'] at h
  obtain ⟨i2, hc, hok⟩ := h
  injection hok with hok
  subst hok
  have hw0 : (if opts.width = 0 then img.infoHeader.width - opts.offsetX
      else opts.width) ≠ 0 := by
    by_cases hwz : opts.width = 0
    · rw [if_pos hwz]
      omega
    · rw [if_neg hwz]
      exact hwz
  exact cropCopy_invariant hwf hinv hc h2.1 h2.2 hw0

/-- `Rotate` preserves the padding invariant exactly when the stride
recomputed from the swapped dimensions happens to equal `ImageSize` (it
never updates the `ImageSize` field). -/
theorem rotate_padding_invariant (img img' : BMPImage) (dir : Int)
    (hwf : WFImage img) (h : rotate img dir = some img')
    (hlt : img.infoHeader.height.natAbs < 2147483648)
    (hcond : specStride img.infoHeader.height.natAbs * img.infoHeader.width.toNat =
      img.infoHeader.imageSize) :
    paddingInvariant img' := by
  obtain ⟨hwpos, hwlt, hh0, hhge, hhlt, hbpp, hisz, _, _, hdlen, hrows⟩ := hwf
  obtain ⟨_, hinfo⟩ := rotate_fields h
  have hd0 : (img.data.headD []).length = img.infoHeader.width.toNat := by
    cases hd : img.data with
    | nil =>
      rw [hd] at hdlen
      simp at hdlen
      omega
    | cons r t =>
      have hm : r ∈ img.data := by
        rw [hd]
        exact List.mem_cons_self r t
      simpa using hrows r hm
  unfold paddingInvariant
  rw [hinfo]
  simp only
  rw [hd0, hdlen]
  rw [int32OfInt_eq_self (by omega) (by omega),
    int32OfInt_eq_self (by omega) (by omega)]
  rw [Int.toNat_ofNat, Int.natAbs_ofNat]
  omega

/-- Counterexample to C5: the decoded 1×4 image `tallImg` satisfies the
padding invariant (16 = 4·4), but after `Rotate` right the header claims a
4×1 image whose padded size is 12 while `ImageSize` is still 16 — `Rotate`
never updates `ImageSize`, so the invariant does not survive it. -/
theorem rotate_breaks_padding_invariant :
    parseBMP tallBuf = .ok tallImg ∧ paddingInvariant tallImg ∧
      rotate tallImg 1 = some tallRot ∧ ¬ paddingInvariant tallRot := by
  refine ⟨rfl, by decide, rfl, by decide⟩

/-- C5 amended: for every well-formed image satisfying the padding
invariant, the invariant still holds after `MirrorImage` (either
direction), after each of the seven color filters (indeed any `Filter`
call) and after any `Crop` that succeeds; `Rotate` leaves `ImageSize`
untouched while swapping the width/height fields, so it preserves the
invariant only when the stride recomputed from the swapped dimensions,
`ceil(abs(height)*3/4)*4 * width`, already equals `ImageSize`. -/
theorem padding_invariant_after_transforms (img : BMPImage)
    (hwf : WFImage img) (hinv : paddingInvariant img) :
    (∀ dir img', mirrorImage img dir = some img' → paddingInvariant img') ∧
      (∀ f img', Filter img f = some img' → paddingInvariant img') ∧
      (∀ opts img', crop img opts = some (Except.ok img') → paddingInvariant img') ∧
      (∀ dir img', rotate img dir = some img' →
        img.infoHeader.height.natAbs < 2147483648 →
        specStride img.infoHeader.height.natAbs * img.infoHeader.width.toNat =
          img.infoHeader.imageSize →
        paddingInvariant img') := by
  refine ⟨?_, ?_, ?_, ?_⟩
  · intro dir img' h
    exact paddingInvariant_of_infoHeader_eq (mirrorImage_headers h).2 hinv
  · intro f img' h
    exact paddingInvariant_of_infoHeader_eq (Filter_headers h).2 hinv
  · intro opts img' h
    exact crop_keeps_padding_invariant img img' opts hwf hinv h
  · intro dir img' h hlt hcond
    exact rotate_padding_invariant img img' dir hwf h hlt hcond

/-- Witness for the amended C5 at the concrete image `tallImg`: a vertical
mirror completes and the invariant still holds afterwards. -/
theorem padding_invariant_after_transforms_witness :
    paddingInvariant tallImgV :=
  (padding_invariant_after_transforms tallImg (by decide) (by decide)).1
    ("vertical") tallImgV (by rfl)

/-! ## Reading a rectangular grid back, index by index -/

/-- An in-bounds `gridGet` returns the `getD` value. -/
theorem gridGet_eq_getD {d : List (List Pixel)} {y x : Nat} (hy : y < d.length)
    (hx : x < (d.getD y []).length) :
    gridGet d y x = some ((d.getD y []).getD x default) := by
  unfold gridGet
  have hdy : d.getD y [] = d[y] := by
    rw [List.getD_eq_getElem?_getD, List.getElem?_eq_getElem hy]
    rfl
  rw [List.getElem?_eq_getElem hy, Option.some_bind]
  rw [hdy] at hx ⊢
  rw [List.getElem?_eq_getElem hx]
  congr 1
  rw [List.getD_eq_getElem?_getD, List.getElem?_eq_getElem hx]
  rfl

/-- Reading every cell of a rectangular grid in row-major order reproduces
the grid. -/
theorem grid_read_back {d : List (List Pixel)} {w : Nat}
    (hrows : ∀ row ∈ d, row.length = w) :
    ((List.range d.length).mapM fun i =>
      (List.range w).mapM fun j => gridGet d i j) = some d := by
  have hcall : ∀ i ∈ List.range d.length,
      ((List.range w).mapM fun j => gridGet d i j) = some (d.getD i []) := by
    intro i hi
    rw [List.mem_range] at hi
    have hrow : d.getD i [] ∈ d := by
      rw [List.getD_eq_getElem?_getD, List.getElem?_eq_getElem hi]
      exact List.getElem_mem hi
    have hlen : (d.getD i []).length = w := hrows _ hrow
    have hinner : ∀ j ∈ List.range w,
        gridGet d i j = some ((d.getD i []).getD j default) := by
      intro j hj
      rw [List.mem_range] at hj
      exact gridGet_eq_getD hi (by omega)
    rw [mapM_eq_some_of_forall hinner]
    rw [show List.range w = List.range (d.getD i []).length from by rw [hlen]]
    rw [map_getD_range]
  rw [mapM_eq_some_of_forall hcall, map_getD_range]

/-! ## C6: cropping to the full bounds -/

/-- On a bottom-up image whose `FileSize` equals `DataOffset + ImageSize`
and whose `ImageSize` satisfies the padding invariant, `cropCopy` with zero
offsets and the full dimensions reproduces the image exactly. -/
theorem cropCopy_identity (img : BMPImage) (hwf : WFImage img)
    (hpos : 0 < img.infoHeader.height) (hinv : paddingInvariant img)
    (hfs : img.header.fileSize = img.header.dataOffset + img.infoHeader.imageSize)
    {w h : Int} (hw : w = img.infoHeader.width) (hh : h = img.infoHeader.height) :
    cropCopy img 0 0 w h = some img := by
  subst hw
  subst hh
  obtain ⟨hwpos, hwlt, hh0, hhge, hhlt, hbpp, hisz, hfs32, hdo32, hdlen, hrows⟩ := hwf
  have hnt : ¬img.infoHeader.height < 0 := by omega
  have hnw : ¬img.infoHeader.width < 0 := by omega
  simp only [cropCopy]
  rw [if_neg (by omega :
    ¬(img.infoHeader.height < 0 ∨ img.infoHeader.width < 0 ∧ 0 < img.infoHeader.height))]
  have hgrid : ((List.range img.infoHeader.height.toNat).mapM fun (i : Nat) =>
      (List.range img.infoHeader.width.toNat).mapM fun (j : Nat) =>
        gridGetI img.data
          (if ¬img.infoHeader.height < 0 then (0 : Int) + (i : Int)
            else (img.infoHeader.height.natAbs : Int) - 1 - ((0 : Int) + (i : Int)))
          ((0 : Int) + (j : Int))) = some img.data := by
    have hlen' : img.infoHeader.height.toNat = img.data.length := by omega
    rw [hlen']
    have hcall : ∀ i ∈ List.range img.data.length,
        ((List.range img.infoHeader.width.toNat).mapM fun (j : Nat) =>
          gridGetI img.data
            (if ¬img.infoHeader.height < 0 then (0 : Int) + (i : Int)
              else (img.infoHeader.height.natAbs : Int) - 1 - ((0 : Int) + (i : Int)))
            ((0 : Int) + (j : Int))) = some (img.data.getD i []) := by
      intro i hi
      rw [List.mem_range] at hi
      have hrowmem : img.data.getD i [] ∈ img.data := by
        rw [List.getD_eq_getElem?_getD, List.getElem?_eq_getElem hi]
        exact List.getElem_mem hi
      have hlenrow : (img.data.getD i []).length = img.infoHeader.width.toNat :=
        hrows _ hrowmem
      have hinner : ∀ j ∈ List.range img.infoHeader.width.toNat,
          gridGetI img.data
            (if ¬img.infoHeader.height < 0 then (0 : Int) + (i : Int)
              else (img.infoHeader.height.natAbs : Int) - 1 - ((0 : Int) + (i : Int)))
            ((0 : Int) + (j : Int)) =
          some ((img.data.getD i []).getD j default) := by
        intro j hj
        rw [List.mem_range] at hj
        rw [if_pos hnt]
        unfold gridGetI
        rw [if_pos ⟨by omega, by omega⟩]
        rw [show ((0 : Int) + (i : Int)).toNat = i from by omega,
          show ((0 : Int) + (j : Int)).toNat = j from by omega]
        exact gridGet_eq_getD hi (by omega)
      rw [mapM_eq_some_of_forall hinner]
      rw [show List.range img.infoHeader.width.toNat =
        List.range (img.data.getD i []).length from by rw [hlenrow]]
      rw [map_getD_range]
    rw [mapM_eq_some_of_forall hcall, map_getD_range]
  rw [hgrid, Option.map_some']
  congr 1
  have hsz : (img.infoHeader.width * ((img.infoHeader.bitsPerPixel / 8 : Nat) : Int) + 3).fdiv 4 *
      4 * img.infoHeader.height = (img.infoHeader.imageSize : Int) := by
    rw [hbpp, show ((24 / 8 : Nat) : Int) = 3 from rfl]
    rw [show img.infoHeader.width = ((img.infoHeader.width.toNat : Nat) : Int) from by omega]
    rw [fdiv_stride_eq_specStride, hinv]
    rw [show img.infoHeader.height = ((img.infoHeader.height.natAbs : Nat) : Int) from by omega]
    push_cast
    rw [abs_abs]
  have hfsfield : uint32OfInt ((img.header.dataOffset : Int) +
      (img.infoHeader.width * ((img.infoHeader.bitsPerPixel / 8 : Nat) : Int) + 3).fdiv 4 * 4 *
        img.infoHeader.height) = img.header.fileSize := by
    rw [hsz]
    rw [uint32OfInt_eq_toNat (by positivity) (by omega)]
    omega
  have hszfield : uint32OfInt
      ((img.infoHeader.width * ((img.infoHeader.bitsPerPixel / 8 : Nat) : Int) + 3).fdiv 4 * 4 *
        img.infoHeader.height) = img.infoHeader.imageSize := by
    rw [hsz]
    rw [uint32OfInt_eq_toNat (by positivity) (by omega)]
    omega
  rw [hfsfield, hszfield, if_neg hnt]
  rw [int32OfInt_eq_self (by omega) (by omega),
    int32OfInt_eq_self (by omega) (by omega)]

/-- `Crop` on arguments that pass its two bound checks reduces to
`cropCopy` with the defaulted width and height. -/
theorem crop_eq_copy (img : BMPImage) (ox oy ow oh : Int) {W H : Int}
    (hW : W = if ow = 0 then img.infoHeader.width - ox else ow)
    (hH : H = if oh = 0 then (img.infoHeader.height.natAbs : Int) - oy else oh)
    (h1 : ¬(ox ≥ img.infoHeader.width ∨
      oy ≥ (img.infoHeader.height.natAbs : Int)))
    (h2 : ¬(ox + W > img.infoHeader.width ∨
      oy + H > (img.infoHeader.height.natAbs : Int))) :
    crop img ⟨ox, oy, ow, oh⟩ = (cropCopy img ox oy W H).map Except.ok := by
  simp only [crop]
  rw [if_neg h1, ← hW, ← hH, if_neg h2]

/-- C6 amended: on a well-formed bottom-up image (positive stored height)
satisfying the padding invariant and `FileSize = DataOffset + ImageSize`,
cropping to the full current bounds — with the width/height passed
explicitly or omitted (zero) — succeeds and is a no-op.  (On top-down
images the copy loop reverses the rows, and when `FileSize` differs from
`DataOffset + ImageSize` the `FileSize` field is rewritten, so the claim
does not hold unconditionally.) -/
theorem crop_full_bounds_noop (img : BMPImage) (hwf : WFImage img)
    (hpos : 0 < img.infoHeader.height) (hinv : paddingInvariant img)
    (hfs : img.header.fileSize = img.header.dataOffset + img.infoHeader.imageSize) :
    crop img ⟨0, 0, img.infoHeader.width, img.infoHeader.height⟩ =
        some (.ok img) ∧
      crop img ⟨0, 0, 0, 0⟩ = some (.ok img) := by
  obtain ⟨hwpos, hwlt, hh0, hhge, hhlt, hbpp, hisz, hfs32, hdo32, hdlen, hrows⟩ := hwf
  have hwf' : WFImage img :=
    ⟨hwpos, hwlt, hh0, hhge, hhlt, hbpp, hisz, hfs32, hdo32, hdlen, hrows⟩
  constructor
  · rw [crop_eq_copy img 0 0 img.infoHeader.width img.infoHeader.height
      (W := img.infoHeader.width) (H := img.infoHeader.height)
      (by rw [if_neg (by omega : ¬img.infoHeader.width = 0)])
      (by rw [if_neg (by omega : ¬img.infoHeader.height = 0)])
      (by omega) (by omega)]
    rw [cropCopy_identity img hwf' hpos hinv hfs rfl rfl]
    rfl
  · rw [crop_eq_copy img 0 0 0 0
      (W := img.infoHeader.width - 0)
      (H := (img.infoHeader.height.natAbs : Int) - 0)
      (by rw [if_pos (rfl : (0 : Int) = 0)])
      (by rw [if_pos (rfl : (0 : Int) = 0)])
      (by omega) (by omega)]
    rw [cropCopy_identity img hwf' hpos hinv hfs (by omega) (by omega)]
    rfl

/-- Counterexample to C6: on the decoded top-down image `sampleTopDown`,
cropping to the full bounds (defaulted or explicit) succeeds but reverses
the two rows — the copy loop maps row `i` to `absHeight - 1 - i` for
negative stored heights — so it is not a no-op. -/
theorem crop_full_bounds_not_noop :
    crop sampleTopDown ⟨0, 0, 0, 0⟩ = some (.ok sampleTopDownCropped) ∧
      crop sampleTopDown ⟨0, 0, 1, 2⟩ = some (.ok sampleTopDownCropped) ∧
      sampleTopDownCropped ≠ sampleTopDown := by
  refine ⟨rfl, rfl, by decide⟩

/-- Witness for the amended C6 at the concrete decoded image `tallImg`
(bottom-up, invariant and `FileSize = DataOffset + ImageSize` hold):
cropping to the full bounds, explicitly or defaulted, returns the image
unchanged. -/
theorem crop_full_bounds_noop_witness :
    crop tallImg ⟨0, 0, 1, 4⟩ = some (.ok tallImg) ∧
      crop tallImg ⟨0, 0, 0, 0⟩ = some (.ok tallImg) :=
  crop_full_bounds_noop tallImg (by decide) (by decide) (by decide) (by decide)

/-! ## C7: rotate right then rotate left -/

/-- Indexing a range-map with `getD`. -/
theorem getD_map_range {α : Type} (f : Nat → α) (dflt : α) {n y : Nat}
    (hy : y < n) : ((List.range n).map f).getD y dflt = f y := by
  rw [List.getD_eq_getElem?_getD, List.getElem?_map, List.getElem?_range hy]
  rfl

/-- The head of a nonempty range-map. -/
theorem headD_map_range {α : Type} (f : Nat → α) (d : α) {n : Nat}
    (hn : 0 < n) : ((List.range n).map f).headD d = f 0 := by
  cases n with
  | zero => omega
  | succ m => rw [List.range_succ_eq_map, List.map_cons, List.headD_cons]

/-- C7 amended: on a rectangular, nonempty grid whose header width/height
fields agree with the grid dimensions (in particular the stored height is
positive, as after decoding a bottom-up image), rotating right and then
left restores the image exactly.  (For a top-down image the pixels return
but the height field's sign is lost: `Rotate` always stores the grid
dimension, which is nonnegative.) -/
theorem rotate_right_left_restores (img : BMPImage)
    (hh : img.infoHeader.height = (img.data.length : Int))
    (hw : img.infoHeader.width = ((img.data.headD []).length : Int))
    (hpos : 0 < img.data.length) (hwpos : 0 < (img.data.headD []).length)
    (hhlt : (img.data.length : Int) < 2147483648)
    (hwlt : ((img.data.headD []).length : Int) < 2147483648)
    (hrows : ∀ row ∈ img.data, row.length = (img.data.headD []).length) :
    ∃ r, rotate img 1 = some r ∧ rotate r (-1) = some img := by
  refine ⟨{ img with
    infoHeader :=
      { img.infoHeader with
        height := int32OfInt ((img.data.headD []).length : Int)
        width := int32OfInt (img.data.length : Int) }
    data := (List.range (img.data.headD []).length).map fun i =>
      (List.range img.data.length).map fun j =>
        (img.data.getD j []).getD ((img.data.headD []).length - 1 - i) default },
    ?_, ?_⟩
  · simp only [rotate]
    rw [if_neg (by
      intro hcon
      rw [List.isEmpty_iff] at hcon
      rw [hcon] at hpos
      simp at hpos)]
    have hcell : ∀ i ∈ List.range (img.data.headD []).length,
        ((List.range img.data.length).mapM fun j =>
          if (1 : Int) = -1 then
            gridGet img.data (img.data.length - 1 - j) i
          else gridGet img.data j ((img.data.headD []).length - 1 - i)) =
        some ((List.range img.data.length).map fun j =>
          (img.data.getD j []).getD ((img.data.headD []).length - 1 - i) default) := by
      intro i hi
      rw [List.mem_range] at hi
      refine mapM_eq_some_of_forall ?_
      intro j hj
      rw [List.mem_range] at hj
      rw [if_neg (by decide)]
      have hrl : (img.data.getD j []).length = (img.data.headD []).length := by
        refine hrows _ ?_
        rw [List.getD_eq_getElem?_getD, List.getElem?_eq_getElem hj]
        exact List.getElem_mem hj
      exact gridGet_eq_getD hj (by omega)
    rw [mapM_eq_some_of_forall hcell]
    rfl
  · simp only [rotate]
    have hRlen : ((List.range (img.data.headD []).length).map fun i =>
        (List.range img.data.length).map fun j =>
          (img.data.getD j []).getD ((img.data.headD []).length - 1 - i) default).length =
        (img.data.headD []).length := by
      rw [List.length_map, List.length_range]
    have hRhead : ((((List.range (img.data.headD []).length).map fun i =>
        (List.range img.data.length).map fun j =>
          (img.data.getD j []).getD ((img.data.headD []).length - 1 - i) default)).headD
          []).length = img.data.length := by
      rw [headD_map_range _ _ hwpos, List.length_map, List.length_range]
    rw [if_neg (by
      rw [List.isEmpty_iff, List.map_eq_nil_iff, List.range_eq_nil]
      omega)]
    rw [hRlen, hRhead]
    simp only [if_true]
    have hcell2 : ∀ i ∈ List.range img.data.length,
        ((List.range (img.data.headD []).length).mapM fun j =>
          gridGet ((List.range (img.data.headD []).length).map fun i =>
              (List.range img.data.length).map fun j =>
                (img.data.getD j []).getD ((img.data.headD []).length - 1 - i) default)
              ((img.data.headD []).length - 1 - j) i) =
        some (img.data.getD i []) := by
      intro i hi
      rw [List.mem_range] at hi
      have hrowmem : img.data.getD i [] ∈ img.data := by
        rw [List.getD_eq_getElem?_getD, List.getElem?_eq_getElem hi]
        exact List.getElem_mem hi
      have hrl : (img.data.getD i []).length = (img.data.headD []).length :=
        hrows _ hrowmem
      have hinner : ∀ j ∈ List.range (img.data.headD []).length,
          gridGet ((List.range (img.data.headD []).length).map fun i =>
              (List.range img.data.length).map fun j =>
                (img.data.getD j []).getD ((img.data.headD []).length - 1 - i) default)
              ((img.data.headD []).length - 1 - j) i =
          some ((img.data.getD i []).getD j default) := by
        intro j hj
        rw [List.mem_range] at hj
        rw [gridGet_eq_getD
          (by rw [List.length_map, List.length_range]; omega)
          (by rw [getD_map_range _ _ (by omega)]
              rw [List.length_map, List.length_range]
              omega)]
        rw [getD_map_range _ _ (by omega), getD_map_range _ _ (by omega)]
        congr 2
        omega
      rw [mapM_eq_some_of_forall hinner]
      rw [show List.range (img.data.headD []).length =
        List.range (img.data.getD i []).length from by rw [hrl]]
      rw [map_getD_range]
    rw [mapM_eq_some_of_forall hcell2, map_getD_range _ img.data, Option.map_some']
    have hW : int32OfInt (((img.data.headD []).length : Nat) : Int) =
        img.infoHeader.width := by
      rw [int32OfInt_eq_self (by omega) (by omega)]
      exact hw.symm
    have hH : int32OfInt ((img.data.length : Nat) : Int) =
        img.infoHeader.height := by
      rw [int32OfInt_eq_self (by omega) (by omega)]
      exact hh.symm
    simp only [hW, hH]

/-- Counterexample to C7 as stated for every image: on the decoded top-down
image `sampleTopDown` (stored height `-2`), rotating right and then left
returns the pixel grid but stores height `2` — `Rotate` writes the grid
dimension, so the top-down sign is lost and the image is not restored. -/
theorem rotate_right_left_not_inverse :
    rotate sampleTopDown 1 = some sampleTopDownR ∧
      rotate sampleTopDownR (-1) = some sampleTopDownRL ∧
      sampleTopDownRL ≠ sampleTopDown := by
  refine ⟨rfl, rfl, by decide⟩

/-- Witness for the amended C7 at the decoded bottom-up image `tallImg`
(1 wide, 4 tall): rotating right then left restores it exactly. -/
theorem rotate_right_left_restores_witness :
    ∃ r, rotate tallImg 1 = some r ∧ rotate r (-1) = some tallImg :=
  rotate_right_left_restores tallImg (by decide) (by decide) (by decide)
    (by decide) (by decide) (by decide) (by decide)

/-! ## C3: row order on decode -/

/-- A successful `readPixel` returns exactly the bytes at its offset. -/
theorem readPixel_some_eq {b : List Nat} {off : Nat} {p : Pixel}
    (h : readPixel b off = some p) : p = pixelAt b off := by
  simp only [readPixel, Option.bind_eq_bind] at h
  cases hbl : b[off]? with
  | none => rw [hbl, Option.none_bind] at h; exact absurd h (by simp)
  | some bl =>
    rw [hbl, Option.some_bind] at h
    cases hg : b[off + 1]? with
    | none => rw [hg, Option.none_bind] at h; exact absurd h (by simp)
    | some g =>
      rw [hg, Option.some_bind] at h
      cases hr : b[off + 2]? with
      | none => rw [hr, Option.none_bind] at h; exact absurd h (by simp)
      | some r =>
        rw [hr, Option.some_bind, Option.pure_def, Option.some_inj] at h
        subst h
        simp [pixelAt, List.getD_eq_getElem?_getD, hbl, hg, hr]

/-- `readPixel` succeeds whenever its three byte reads are in bounds. -/
theorem readPixel_eq {b : List Nat} {off : Nat} (h : off + 2 < b.length) :
    readPixel b off = some (pixelAt b off) := by
  simp only [readPixel, Option.bind_eq_bind]
  rw [List.getElem?_eq_getElem (by omega), Option.some_bind,
    List.getElem?_eq_getElem (by omega), Option.some_bind,
    List.getElem?_eq_getElem (by omega), Option.some_bind]
  simp only [pixelAt]
  rw [List.getD_eq_getElem _ _ (by omega : off < b.length),
    List.getD_eq_getElem _ _ (by omega : off + 1 < b.length),
    List.getD_eq_getElem _ _ (by omega : off + 2 < b.length)]
  rfl

/-- A successful inner pixel loop returns the pixels at
`base + (x+k)*bpp` for `k < n`. -/
theorem readRowFrom_some_eq {b : List Nat} {base bpp : Nat} :
    ∀ (n x : Nat) {row : List Pixel},
      readRowFrom b base bpp x n = some row →
      row = (List.range n).map fun k => pixelAt b (base + (x + k) * bpp) := by
  intro n
  induction n with
  | zero =>
    intro x row h
    simp only [readRowFrom, Option.bind_eq_bind, Option.some_inj] at h
    rw [← h]
    rfl
  | succ m ih =>
    intro x row h
    simp only [readRowFrom, Option.bind_eq_bind] at h
    cases hp : readPixel b (base + x * bpp) with
    | none => rw [hp, Option.none_bind] at h; exact absurd h (by simp)
    | some p =>
      rw [hp, Option.some_bind] at h
      cases hrest : readRowFrom b base bpp (x + 1) m with
      | none => rw [hrest, Option.none_bind] at h; exact absurd h (by simp)
      | some rest =>
        rw [hrest, Option.some_bind, Option.pure_def, Option.some_inj] at h
        subst h
        rw [readPixel_some_eq hp, ih (x + 1) hrest]
        rw [List.range_succ_eq_map, List.map_cons, List.map_map]
        refine List.cons_eq_cons.mpr ⟨?_, List.map_congr_left ?_⟩
        · congr 1 <;> ring
        · intro k _
          simp only [Function.comp_apply, Nat.succ_eq_add_one]
          congr 1 <;> ring

/-- The inner pixel loop succeeds whenever all its byte reads are in
bounds. -/
theorem readRowFrom_eq {b : List Nat} {base bpp : Nat} :
    ∀ (n x : Nat), (∀ k, k < n → base + (x + k) * bpp + 2 < b.length) →
      readRowFrom b base bpp x n =
        some ((List.range n).map fun k => pixelAt b (base + (x + k) * bpp)) := by
  intro n
  induction n with
  | zero => intro x _; rfl
  | succ m ih =>
    intro x hb
    simp only [readRowFrom, Option.bind_eq_bind]
    rw [readPixel_eq (by have := hb 0 (by omega); simpa using this),
      Option.some_bind, ih (x + 1) (fun k hk => by
        have := hb (k + 1) (by omega)
        have he : x + 1 + k = x + (k + 1) := by ring
        rw [he]
        exact this),
      Option.some_bind, Option.pure_def, Option.some_inj]
    rw [List.range_succ_eq_map, List.map_cons, List.map_map]
    refine List.cons_eq_cons.mpr ⟨?_, List.map_congr_left ?_⟩
    · congr 1 <;> ring
    · intro k _
      simp only [Function.comp_apply, Nat.succ_eq_add_one]
      congr 1 <;> ring

/-- A successful outer row loop returns the rows at
`dOff + (y+i)*rowSize` for `i < n`, in that order: rows come back in file
order, never reversed. -/
theorem readRows_some_eq {b : List Nat} {dOff rowSize bpp w : Nat} :
    ∀ (n y : Nat) {d : List (List Pixel)},
      readRows b dOff rowSize bpp w y n = some d →
      d = (List.range n).map fun i =>
        (List.range w).map fun k =>
          pixelAt b (dOff + (y + i) * rowSize + k * bpp) := by
  intro n
  induction n with
  | zero =>
    intro y d h
    simp only [readRows, Option.bind_eq_bind, Option.some_inj] at h
    rw [← h]
    rfl
  | succ m ih =>
    intro y d h
    simp only [readRows, Option.bind_eq_bind] at h
    cases hrow : readRowFrom b (dOff + y * rowSize) bpp 0 w with
    | none => rw [hrow, Option.none_bind] at h; exact absurd h (by simp)
    | some row =>
      rw [hrow, Option.some_bind] at h
      cases hrest : readRows b dOff rowSize bpp w (y + 1) m with
      | none => rw [hrest, Option.none_bind] at h; exact absurd h (by simp)
      | some rest =>
        rw [hrest, Option.some_bind, Option.pure_def, Option.some_inj] at h
        subst h
        rw [readRowFrom_some_eq w 0 hrow, ih (y + 1) hrest]
        rw [List.range_succ_eq_map, List.map_cons, List.map_map]
        refine List.cons_eq_cons.mpr ⟨List.map_congr_left ?_, List.map_congr_left ?_⟩
        · intro k _
          congr 1 <;> ring
        · intro i _
          simp only [Function.comp_apply, Nat.succ_eq_add_one]
          refine List.map_congr_left ?_
          intro k _
          congr 1 <;> ring

/-- The outer row loop succeeds whenever every byte it reads is in
bounds. -/
theorem readRows_eq {b : List Nat} {dOff rowSize bpp w : Nat} :
    ∀ (n y : Nat),
      (∀ i k, i < n → k < w → dOff + (y + i) * rowSize + k * bpp + 2 < b.length) →
      readRows b dOff rowSize bpp w y n =
        some ((List.range n).map fun i =>
          (List.range w).map fun k =>
            pixelAt b (dOff + (y + i) * rowSize + k * bpp)) := by
  intro n
  induction n with
  | zero => intro y _; rfl
  | succ m ih =>
    intro y hb
    simp only [readRows, Option.bind_eq_bind]
    rw [readRowFrom_eq w 0 (fun k hk => by
        have := hb 0 k (by omega) hk
        have he : dOff + y * rowSize + (0 + k) * bpp = dOff + (y + 0) * rowSize + k * bpp := by
          ring
        rw [he]
        exact this),
      Option.some_bind, ih (y + 1) (fun i k hi hk => by
        have := hb (i + 1) k (by omega) hk
        have he : y + 1 + i = y + (i + 1) := by ring
        rw [he]
        exact this),
      Option.some_bind, Option.pure_def, Option.some_inj]
    rw [List.range_succ_eq_map, List.map_cons, List.map_map]
    refine List.cons_eq_cons.mpr ⟨List.map_congr_left ?_, List.map_congr_left ?_⟩
    · intro k _
      congr 1 <;> ring
    · intro i _
      simp only [Function.comp_apply, Nat.succ_eq_add_one]
      refine List.map_congr_left ?_
      intro k _
      congr 1 <;> ring

/-- C3 amended: for every buffer that decodes successfully — with a
positive or a negative stored height — `ParseBMP` reads the rows in file
order, never reversed, and at the unpadded stride `width*3`:
`Data[y]` is the `width`-pixel row whose bytes start at
`DataOffset + y*width*3`, i.e. disk row `y` read without padding. -/
theorem parse_reads_rows_in_file_order (b : List Nat) (img : BMPImage)
    (h : parseBMP b = .ok img) :
    img.data = (List.range img.infoHeader.height.natAbs).map fun y =>
      diskRow b img.header.dataOffset (img.infoHeader.width.toNat * 3)
        img.infoHeader.width.toNat y := by
  simp only [parseBMP] at h
  by_cases h1 : b.length < 54
  · rw [if_pos h1] at h
    exact absurd h (by simp)
  rw [if_neg h1] at h
  by_cases h2 : ¬(b.getD 0 0 = 66 ∧ b.getD 1 0 = 77)
  · rw [if_pos h2] at h
    exact absurd h (by simp)
  rw [if_neg h2] at h
  by_cases h3 : (parsedDIB b).size < 40
  · rw [if_pos h3] at h
    exact absurd h (by simp)
  rw [if_neg h3] at h
  cases hv : validateHeaders (parsedFileHeader b) (parsedDIB b) b.length with
  | some e =>
    rw [hv] at h
    exact absurd h (by simp)
  | none =>
    rw [hv] at h
    have hbpp : (parsedDIB b).bitsPerPixel = 24 := by
      simp only [validateHeaders] at hv
      split_ifs at hv with c1 c2 c3 c4 c5 c6
      omega
    rw [hbpp] at h
    cases hr : readRows b (parsedFileHeader b).dataOffset
        ((parsedDIB b).width.toNat * (24 / 8)) (24 / 8)
        (parsedDIB b).width.toNat 0 (parsedDIB b).height.natAbs with
    | none =>
      rw [hr] at h
      exact absurd h (by simp)
    | some d =>
      rw [hr] at h
      have himg : img = { header := parsedFileHeader b, infoHeader := parsedDIB b
                          data := d } := by
        cases h
        rfl
      subst himg
      have hd := readRows_some_eq (parsedDIB b).height.natAbs 0 hr
      rw [hd]
      refine List.map_congr_left ?_
      intro y _
      simp only [diskRow]
      refine List.map_congr_left ?_
      intro k _
      congr 1 <;> ring

/-- Counterexample to C3: `c3Buf` decodes successfully with a positive
stored height, yet in-memory row 0 is disk row 0, not disk row
`abs(height)-1-0`: `ParseBMP` never reverses the rows. -/
theorem parse_rows_not_reversed :
    parseBMP c3Buf = .ok c3Img ∧ 0 < c3Img.infoHeader.height ∧
      c3Img.data.getD 0 [] ≠
        diskRow c3Buf 54 (specStride 4) 4 (c3Img.infoHeader.height.natAbs - 1 - 0) := by
  refine ⟨rfl, by decide, by decide⟩

/-- Witness for the amended C3 at the decoded image `c3Img`. -/
theorem parse_reads_rows_in_file_order_witness :
    c3Img.data = (List.range c3Img.infoHeader.height.natAbs).map fun y =>
      diskRow c3Buf c3Img.header.dataOffset (c3Img.infoHeader.width.toNat * 3)
        c3Img.infoHeader.width.toNat y :=
  parse_reads_rows_in_file_order c3Buf c3Img rfl

/-! ## C2: the order and arithmetic of the validation checks -/

/-- C2 amended: `ParseBMP` returns the error of the first failing check in
the claim's fixed order, with checks 4 and 8 evaluated in the wrapped
`uint32` arithmetic of the code rather than exact integer arithmetic, and
it returns an image only if all eight checks pass.  (When all eight pass
it may still panic instead of returning an image: see C9.) -/
theorem parse_error_refines_checks (b : List Nat) :
    (∀ e, specFirstErrorW b = some e → parseBMP b = .error e) ∧
      ∀ img, parseBMP b = .ok img → specFirstErrorW b = none := by
  constructor
  · intro e he
    simp only [specFirstErrorW] at he
    simp only [parseBMP]
    by_cases h1 : b.length < 54
    · rw [if_pos h1, Option.some_inj] at he
      rw [if_pos h1, he]
    rw [if_neg h1] at he
    rw [if_neg h1]
    by_cases h2 : ¬(b.getD 0 0 = 66 ∧ b.getD 1 0 = 77)
    · rw [if_pos h2, Option.some_inj] at he
      rw [if_pos h2, he]
    rw [if_neg h2] at he
    rw [if_neg h2]
    by_cases h3 : (parsedDIB b).size < 40
    · rw [if_pos h3, Option.some_inj] at he
      rw [if_pos h3, he]
    rw [if_neg h3] at he
    rw [if_neg h3]
    rw [he]
  · intro img h
    simp only [parseBMP] at h
    simp only [specFirstErrorW]
    by_cases h1 : b.length < 54
    · rw [if_pos h1] at h
      exact absurd h (by simp)
    rw [if_neg h1] at h
    rw [if_neg h1]
    by_cases h2 : ¬(b.getD 0 0 = 66 ∧ b.getD 1 0 = 77)
    · rw [if_pos h2] at h
      exact absurd h (by simp)
    rw [if_neg h2] at h
    rw [if_neg h2]
    by_cases h3 : (parsedDIB b).size < 40
    · rw [if_pos h3] at h
      exact absurd h (by simp)
    rw [if_neg h3] at h
    rw [if_neg h3]
    cases hv : validateHeaders (parsedFileHeader b) (parsedDIB b) b.length with
    | some e =>
      rw [hv] at h
      exact absurd h (by simp)
    | none => rfl

/-- The inner pixel loop fails as soon as its first byte read is out of
range, for any positive pixel count — without running the loop to its
end. -/
theorem readRowFrom_none {b : List Nat} {base bpp x : Nat}
    (hb : b[base + x * bpp]? = none) :
    ∀ n, 0 < n → readRowFrom b base bpp x n = none := by
  intro n hn
  cases n with
  | zero => omega
  | succ m =>
    simp only [readRowFrom, Option.bind_eq_bind]
    have hp : readPixel b (base + x * bpp) = none := by
      simp only [readPixel, Option.bind_eq_bind]
      rw [hb, Option.none_bind]
    rw [hp, Option.none_bind]

/-- The outer row loop fails as soon as its first row fails, for any
positive row count. -/
theorem readRows_none {b : List Nat} {dOff rowSize bpp w y : Nat}
    (hrow : readRowFrom b (dOff + y * rowSize) bpp 0 w = none) :
    ∀ n, 0 < n → readRows b dOff rowSize bpp w y n = none := by
  intro n hn
  cases n with
  | zero => omega
  | succ m =>
    simp only [readRows, Option.bind_eq_bind]
    rw [hrow, Option.none_bind]

/-- Counterexample to C2: on `c2Buf` the claim's exact-arithmetic check 8
fails, so the claim demands the `invalid-image-data` error, but `ParseBMP`
does not return it — the wrapped check passes and the pixel loop panics on
the empty pixel region instead. -/
theorem validation_not_exact_arithmetic :
    specFirstError c2Buf = some .invalidImageData ∧
      parseBMP c2Buf = .error .panic := by
  refine ⟨by decide, ?_⟩
  simp only [parseBMP]
  rw [if_neg (by decide : ¬c2Buf.length < 54)]
  rw [if_neg (by decide : ¬¬(c2Buf.getD 0 0 = 66 ∧ c2Buf.getD 1 0 = 77))]
  rw [if_neg (by decide : ¬(parsedDIB c2Buf).size < 40)]
  rw [show validateHeaders (parsedFileHeader c2Buf) (parsedDIB c2Buf)
    c2Buf.length = none from by decide]
  rw [show (parsedFileHeader c2Buf).dataOffset = 54 from rfl,
    show (parsedDIB c2Buf).width.toNat = 2147483647 from rfl,
    show (parsedDIB c2Buf).bitsPerPixel / 8 = 3 from rfl,
    show (parsedDIB c2Buf).height.natAbs = 2 from rfl]
  have hb : c2Buf[54 + 0 * (2147483647 * 3) + 0 * 3]? = none := by decide
  have hrow := readRowFrom_none hb 2147483647 (by norm_num)
  have hrows := readRows_none (y := 0) hrow 2 (by norm_num)
  rw [hrows]

/-- Witness for the amended C2 at the empty buffer: the first check fails,
and `ParseBMP` returns exactly its error. -/
theorem parse_error_refines_checks_witness :
    parseBMP [] = .error .invalidBMP ∧ specFirstErrorW [] = some .invalidBMP :=
  ⟨(parse_error_refines_checks []).1 .invalidBMP (by decide), by decide⟩

/-! ## C4: the layout of the serialized pixel data

`SerializeBMP` sizes its buffer with the padded stride but writes the
pixels with one running offset that advances 3 bytes per pixel: the rows
are packed back to back and all the padding sits at the end of the
buffer.  The lemmas below characterize every byte of the output. -/

/-- An in-bounds store succeeds and updates one index. -/
theorem setByte_in {m : ByteBuf} {i : Nat} (v : Nat) (h : i < m.size) :
    setByte m i v = some ⟨m.size, fun j => if j = i then v % 256 else m.val j⟩ := by
  unfold setByte
  rw [if_pos h]

/-- An in-bounds `PutUint16` succeeds and writes two bytes. -/
theorem put16_in {m : ByteBuf} {off : Nat} (v : Nat) (h : off + 1 < m.size) :
    put16 m off v = some ⟨m.size, fun j =>
      if j = off + 1 then v / 256 % 256
      else if j = off then v % 256
      else m.val j⟩ := by
  simp (disch := first | omega | (dsimp only; omega)) only [put16, Option.bind_eq_bind, setByte_in,
    Option.some_bind]

/-- An in-bounds `PutUint32` succeeds and writes four bytes. -/
theorem put32_in {m : ByteBuf} {off : Nat} (v : Nat) (h : off + 3 < m.size) :
    put32 m off v = some ⟨m.size, fun j =>
      if j = off + 3 then v / 16777216 % 256
      else if j = off + 2 then v / 65536 % 256
      else if j = off + 1 then v / 256 % 256
      else if j = off then v % 256
      else m.val j⟩ := by
  simp (disch := first | omega | (dsimp only; omega)) only [put32, Option.bind_eq_bind, setByte_in,
    Option.some_bind]

/-- An in-bounds `PutUint16` succeeds, preserves the size, writes its two
bytes and touches nothing else. -/
theorem put16_spec (m : ByteBuf) (off v : Nat) (h : off + 1 < m.size) :
    ∃ m', put16 m off v = some m' ∧ m'.size = m.size ∧
      (∀ j, j < off ∨ off + 2 ≤ j → m'.val j = m.val j) ∧
      m'.val off = v % 256 ∧ m'.val (off + 1) = v / 256 % 256 := by
  refine ⟨_, put16_in v h, rfl, ?_, ?_, ?_⟩
  · intro j hj
    dsimp only
    rw [if_neg (by omega), if_neg (by omega)]
  · dsimp only
    rw [if_neg (by omega), if_pos rfl]
  · dsimp only
    rw [if_pos rfl]

/-- An in-bounds `PutUint32` succeeds, preserves the size, writes its four
bytes and touches nothing else. -/
theorem put32_spec (m : ByteBuf) (off v : Nat) (h : off + 3 < m.size) :
    ∃ m', put32 m off v = some m' ∧ m'.size = m.size ∧
      (∀ j, j < off ∨ off + 4 ≤ j → m'.val j = m.val j) ∧
      m'.val off = v % 256 ∧ m'.val (off + 1) = v / 256 % 256 ∧
      m'.val (off + 2) = v / 65536 % 256 ∧ m'.val (off + 3) = v / 16777216 % 256 := by
  refine ⟨_, put32_in v h, rfl, ?_, ?_, ?_, ?_, ?_⟩
  · intro j hj
    dsimp only
    rw [if_neg (by omega), if_neg (by omega), if_neg (by omega), if_neg (by omega)]
  · dsimp only
    rw [if_neg (by omega), if_neg (by omega), if_neg (by omega), if_pos rfl]
  · dsimp only
    rw [if_neg (by omega), if_neg (by omega), if_pos rfl]
  · dsimp only
    rw [if_neg (by omega), if_pos rfl]
  · dsimp only
    rw [if_pos rfl]

/-- The file-header block writes bytes 0-13 of `headerBytes` and nothing
else. -/
theorem putFileHeader_spec (img : BMPImage) (m : ByteBuf) (h : 14 ≤ m.size) :
    ∃ m', putFileHeader img m = some m' ∧ m'.size = m.size ∧
      (∀ j, 14 ≤ j → m'.val j = m.val j) ∧
      ∀ j, j < 14 → m'.val j = (headerBytes img).getD j 0 := by
  unfold putFileHeader
  simp only [Option.bind_eq_bind]
  obtain ⟨m1, he1, hs1, hu1, hb10, hb11⟩ := put16_spec m 0
    (img.header.signature0 % 256 + 256 * (img.header.signature1 % 256)) (by omega)
  rw [he1]
  simp only [Option.some_bind]
  obtain ⟨m2, he2, hs2, hu2, hb20, hb21, hb22, hb23⟩ :=
    put32_spec m1 2 img.header.fileSize (by omega)
  rw [he2]
  simp only [Option.some_bind]
  obtain ⟨m3, he3, hs3, hu3, hb30, hb31, hb32, hb33⟩ :=
    put32_spec m2 6 img.header.reserved (by omega)
  rw [he3]
  simp only [Option.some_bind]
  obtain ⟨m4, he4, hs4, hu4, hb40, hb41, hb42, hb43⟩ :=
    put32_spec m3 10 img.header.dataOffset (by omega)
  refine ⟨m4, he4, by omega, ?_, ?_⟩
  · intro j hj
    rw [hu4 j (by omega), hu3 j (by omega), hu2 j (by omega), hu1 j (by omega)]
  · intro j hj
    interval_cases j
    · rw [hu4 0 (by omega), hu3 0 (by omega), hu2 0 (by omega), hb10]
      rfl
    · rw [hu4 1 (by omega), hu3 1 (by omega), hu2 1 (by omega),
        show (1 : Nat) = 0 + 1 from rfl, hb11]
      rfl
    · rw [hu4 2 (by omega), hu3 2 (by omega), hb20]
      rfl
    · rw [hu4 3 (by omega), hu3 3 (by omega),
        show (3 : Nat) = 2 + 1 from rfl, hb21]
      rfl
    · rw [hu4 4 (by omega), hu3 4 (by omega),
        show (4 : Nat) = 2 + 2 from rfl, hb22]
      rfl
    · rw [hu4 5 (by omega), hu3 5 (by omega),
        show (5 : Nat) = 2 + 3 from rfl, hb23]
      rfl
    · rw [hu4 6 (by omega), hb30]
      rfl
    · rw [hu4 7 (by omega), show (7 : Nat) = 6 + 1 from rfl, hb31]
      rfl
    · rw [hu4 8 (by omega), show (8 : Nat) = 6 + 2 from rfl, hb32]
      rfl
    · rw [hu4 9 (by omega), show (9 : Nat) = 6 + 3 from rfl, hb33]
      rfl
    · rw [hb40]
      rfl
    · rw [show (11 : Nat) = 10 + 1 from rfl, hb41]
      rfl
    · rw [show (12 : Nat) = 10 + 2 from rfl, hb42]
      rfl
    · rw [show (13 : Nat) = 10 + 3 from rfl, hb43]
      rfl

/-- The first DIB block writes bytes 14-29 of `headerBytes` and nothing
else. -/
theorem putDIBHeaderA_spec (img : BMPImage) (m : ByteBuf) (h : 30 ≤ m.size) :
    ∃ m', putDIBHeaderA img m = some m' ∧ m'.size = m.size ∧
      (∀ j, j < 14 ∨ 30 ≤ j → m'.val j = m.val j) ∧
      ∀ j, 14 ≤ j → j < 30 → m'.val j = (headerBytes img).getD j 0 := by
  unfold putDIBHeaderA
  simp only [Option.bind_eq_bind]
  obtain ⟨m1, he1, hs1, hu1, hb10, hb11, hb12, hb13⟩ :=
    put32_spec m 14 img.infoHeader.size (by omega)
  rw [he1]
  simp only [Option.some_bind]
  obtain ⟨m2, he2, hs2, hu2, hb20, hb21, hb22, hb23⟩ :=
    put32_spec m1 18 (uint32OfInt img.infoHeader.width) (by omega)
  rw [he2]
  simp only [Option.some_bind]
  obtain ⟨m3, he3, hs3, hu3, hb30, hb31, hb32, hb33⟩ :=
    put32_spec m2 22 (uint32OfInt img.infoHeader.height) (by omega)
  rw [he3]
  simp only [Option.some_bind]
  obtain ⟨m4, he4, hs4, hu4, hb40, hb41⟩ :=
    put16_spec m3 26 img.infoHeader.planes (by omega)
  rw [he4]
  simp only [Option.some_bind]
  obtain ⟨m5, he5, hs5, hu5, hb50, hb51⟩ :=
    put16_spec m4 28 img.infoHeader.bitsPerPixel (by omega)
  refine ⟨m5, he5, by omega, ?_, ?_⟩
  · intro j hj
    rw [hu5 j (by omega), hu4 j (by omega), hu3 j (by omega), hu2 j (by omega),
      hu1 j (by omega)]
  · intro j hj1 hj2
    interval_cases j
    · rw [hu5 14 (by omega), hu4 14 (by omega), hu3 14 (by omega),
        hu2 14 (by omega), hb10]
      rfl
    · rw [hu5 15 (by omega), hu4 15 (by omega), hu3 15 (by omega),
        hu2 15 (by omega), show (15 : Nat) = 14 + 1 from rfl, hb11]
      rfl
    · rw [hu5 16 (by omega), hu4 16 (by omega), hu3 16 (by omega),
        hu2 16 (by omega), show (16 : Nat) = 14 + 2 from rfl, hb12]
      rfl
    · rw [hu5 17 (by omega), hu4 17 (by omega), hu3 17 (by omega),
        hu2 17 (by omega), show (17 : Nat) = 14 + 3 from rfl, hb13]
      rfl
    · rw [hu5 18 (by omega), hu4 18 (by omega), hu3 18 (by omega), hb20]
      rfl
    · rw [hu5 19 (by omega), hu4 19 (by omega), hu3 19 (by omega),
        show (19 : Nat) = 18 + 1 from rfl, hb21]
      rfl
    · rw [hu5 20 (by omega), hu4 20 (by omega), hu3 20 (by omega),
        show (20 : Nat) = 18 + 2 from rfl, hb22]
      rfl
    · rw [hu5 21 (by omega), hu4 21 (by omega), hu3 21 (by omega),
        show (21 : Nat) = 18 + 3 from rfl, hb23]
      rfl
    · rw [hu5 22 (by omega), hu4 22 (by omega), hb30]
      rfl
    · rw [hu5 23 (by omega), hu4 23 (by omega),
        show (23 : Nat) = 22 + 1 from rfl, hb31]
      rfl
    · rw [hu5 24 (by omega), hu4 24 (by omega),
        show (24 : Nat) = 22 + 2 from rfl, hb32]
      rfl
    · rw [hu5 25 (by omega), hu4 25 (by omega),
        show (25 : Nat) = 22 + 3 from rfl, hb33]
      rfl
    · rw [hu5 26 (by omega), hb40]
      rfl
    · rw [hu5 27 (by omega), show (27 : Nat) = 26 + 1 from rfl, hb41]
      rfl
    · rw [hb50]
      rfl
    · rw [show (29 : Nat) = 28 + 1 from rfl, hb51]
      rfl

/-- The second DIB block writes bytes 30-53 of `headerBytes` and nothing
else. -/
theorem putDIBHeaderB_spec (img : BMPImage) (m : ByteBuf) (h : 54 ≤ m.size) :
    ∃ m', putDIBHeaderB img m = some m' ∧ m'.size = m.size ∧
      (∀ j, j < 30 ∨ 54 ≤ j → m'.val j = m.val j) ∧
      ∀ j, 30 ≤ j → j < 54 → m'.val j = (headerBytes img).getD j 0 := by
  unfold putDIBHeaderB
  simp only [Option.bind_eq_bind]
  obtain ⟨m1, he1, hs1, hu1, hb10, hb11, hb12, hb13⟩ :=
    put32_spec m 30 img.infoHeader.compression (by omega)
  rw [he1]
  simp only [Option.some_bind]
  obtain ⟨m2, he2, hs2, hu2, hb20, hb21, hb22, hb23⟩ :=
    put32_spec m1 34 img.infoHeader.imageSize (by omega)
  rw [he2]
  simp only [Option.some_bind]
  obtain ⟨m3, he3, hs3, hu3, hb30, hb31, hb32, hb33⟩ :=
    put32_spec m2 38 (uint32OfInt img.infoHeader.xPixelsPerMeter) (by omega)
  rw [he3]
  simp only [Option.some_bind]
  obtain ⟨m4, he4, hs4, hu4, hb40, hb41, hb42, hb43⟩ :=
    put32_spec m3 42 (uint32OfInt img.infoHeader.yPixelsPerMeter) (by omega)
  rw [he4]
  simp only [Option.some_bind]
  obtain ⟨m5, he5, hs5, hu5, hb50, hb51, hb52, hb53⟩ :=
    put32_spec m4 46 img.infoHeader.colorsUsed (by omega)
  rw [he5]
  simp only [Option.some_bind]
  obtain ⟨m6, he6, hs6, hu6, hb60, hb61, hb62, hb63⟩ :=
    put32_spec m5 50 img.infoHeader.colorsImportant (by omega)
  refine ⟨m6, he6, by omega, ?_, ?_⟩
  · intro j hj
    rw [hu6 j (by omega), hu5 j (by omega), hu4 j (by omega), hu3 j (by omega),
      hu2 j (by omega), hu1 j (by omega)]
  · intro j hj1 hj2
    interval_cases j
    · rw [hu6 30 (by omega), hu5 30 (by omega), hu4 30 (by omega),
        hu3 30 (by omega), hu2 30 (by omega), hb10]
      rfl
    · rw [hu6 31 (by omega), hu5 31 (by omega), hu4 31 (by omega),
        hu3 31 (by omega), hu2 31 (by omega),
        show (31 : Nat) = 30 + 1 from rfl, hb11]
      rfl
    · rw [hu6 32 (by omega), hu5 32 (by omega), hu4 32 (by omega),
        hu3 32 (by omega), hu2 32 (by omega),
        show (32 : Nat) = 30 + 2 from rfl, hb12]
      rfl
    · rw [hu6 33 (by omega), hu5 33 (by omega), hu4 33 (by omega),
        hu3 33 (by omega), hu2 33 (by omega),
        show (33 : Nat) = 30 + 3 from rfl, hb13]
      rfl
    · rw [hu6 34 (by omega), hu5 34 (by omega), hu4 34 (by omega),
        hu3 34 (by omega), hb20]
      rfl
    · rw [hu6 35 (by omega), hu5 35 (by omega), hu4 35 (by omega),
        hu3 35 (by omega), show (35 : Nat) = 34 + 1 from rfl, hb21]
      rfl
    · rw [hu6 36 (by omega), hu5 36 (by omega), hu4 36 (by omega),
        hu3 36 (by omega), show (36 : Nat) = 34 + 2 from rfl, hb22]
      rfl
    · rw [hu6 37 (by omega), hu5 37 (by omega), hu4 37 (by omega),
        hu3 37 (by omega), show (37 : Nat) = 34 + 3 from rfl, hb23]
      rfl
    · rw [hu6 38 (by omega), hu5 38 (by omega), hu4 38 (by omega), hb30]
      rfl
    · rw [hu6 39 (by omega), hu5 39 (by omega), hu4 39 (by omega),
        show (39 : Nat) = 38 + 1 from rfl, hb31]
      rfl
    · rw [hu6 40 (by omega), hu5 40 (by omega), hu4 40 (by omega),
        show (40 : Nat) = 38 + 2 from rfl, hb32]
      rfl
    · rw [hu6 41 (by omega), hu5 41 (by omega), hu4 41 (by omega),
        show (41 : Nat) = 38 + 3 from rfl, hb33]
      rfl
    · rw [hu6 42 (by omega), hu5 42 (by omega), hb40]
      rfl
    · rw [hu6 43 (by omega), hu5 43 (by omega),
        show (43 : Nat) = 42 + 1 from rfl, hb41]
      rfl
    · rw [hu6 44 (by omega), hu5 44 (by omega),
        show (44 : Nat) = 42 + 2 from rfl, hb42]
      rfl
    · rw [hu6 45 (by omega), hu5 45 (by omega),
        show (45 : Nat) = 42 + 3 from rfl, hb43]
      rfl
    · rw [hu6 46 (by omega), hb50]
      rfl
    · rw [hu6 47 (by omega), show (47 : Nat) = 46 + 1 from rfl, hb51]
      rfl
    · rw [hu6 48 (by omega), show (48 : Nat) = 46 + 2 from rfl, hb52]
      rfl
    · rw [hu6 49 (by omega), show (49 : Nat) = 46 + 3 from rfl, hb53]
      rfl
    · rw [hb60]
      rfl
    · rw [show (51 : Nat) = 50 + 1 from rfl, hb61]
      rfl
    · rw [show (52 : Nat) = 50 + 2 from rfl, hb62]
      rfl
    · rw [show (53 : Nat) = 50 + 3 from rfl, hb63]
      rfl

/-- The inner pixel loop of the serializer with the 3-byte step: it
advances the offset by `3` per pixel, writes the three channel bytes of
pixels `x, x+1, ...` of the row consecutively, and touches nothing
else. -/
theorem serRowAux_spec (row : List Pixel) :
    ∀ (n x : Nat) (m : ByteBuf) (off : Nat),
      x + n ≤ row.length → off + 3 * n ≤ m.size →
      ∃ m', serRowAux row 3 m off x n = some (m', off + 3 * n) ∧
        m'.size = m.size ∧
        (∀ j, j < off ∨ off + 3 * n ≤ j → m'.val j = m.val j) ∧
        ∀ k c, k < n → c < 3 →
          m'.val (off + 3 * k + c) =
            pixelChannel (row.getD (x + k) default) c % 256 := by
  intro n
  induction n with
  | zero =>
    intro x m off _ _
    exact ⟨m, by simp [serRowAux], rfl, fun j _ => rfl, fun k c hk _ => by omega⟩
  | succ q ih =>
    intro x m off hrow hsz
    have hx : x < row.length := by omega
    have hpix : row[x]? = some (row.getD x default) := by
      rw [List.getElem?_eq_getElem hx, List.getD_eq_getElem _ _ hx]
    simp only [serRowAux, Option.bind_eq_bind]
    rw [hpix]
    simp only [Option.some_bind]
    rw [setByte_in _ (by omega)]
    simp only [Option.some_bind]
    rw [setByte_in _ (by dsimp only; omega)]
    simp only [Option.some_bind]
    rw [setByte_in _ (by dsimp only; omega)]
    simp only [Option.some_bind]
    obtain ⟨m', he, hs, hu, hb⟩ := ih (x + 1)
      ⟨m.size, fun j =>
        if j = off + 2 then (row.getD x default).red % 256
        else if j = off + 1 then (row.getD x default).green % 256
        else if j = off then (row.getD x default).blue % 256
        else m.val j⟩
      (off + 3) (by omega) (by dsimp only; omega)
    rw [he]
    refine ⟨m', by rw [show off + 3 + 3 * q = off + 3 * (q + 1) from by ring], by rw [hs], ?_, ?_⟩
    · intro j hj
      rw [hu j (by omega)]
      dsimp only
      rw [if_neg (by omega), if_neg (by omega), if_neg (by omega)]
    · intro k c hk hc
      cases k with
      | zero =>
        rw [hu (off + 3 * 0 + c) (by omega)]
        dsimp only
        interval_cases c
        · rw [if_neg (by omega), if_neg (by omega), if_pos (by omega)]
          rfl
        · rw [if_neg (by omega), if_pos (by omega)]
          rfl
        · rw [if_pos (by omega)]
          rfl
      | succ k' =>
        have := hb k' c (by omega) hc
        rw [show off + 3 * (k' + 1) + c = off + 3 + 3 * k' + c from by ring, this,
          show x + 1 + k' = x + (k' + 1) from by ring]

/-- The outer pixel loop of the serializer with the 3-byte step on a grid
whose rows all have length `w`: rows `y, y+1, ...` are written back to
back, `3*w` bytes each, with no gap between them. -/
theorem serRowsAux_spec (d : List (List Pixel)) (w : Nat) :
    ∀ (n y : Nat) (m : ByteBuf) (off : Nat),
      y + n ≤ d.length → (∀ row ∈ d, row.length = w) →
      off + 3 * w * n ≤ m.size →
      ∃ m', serRowsAux d w 3 m off y n = some (m', off + 3 * w * n) ∧
        m'.size = m.size ∧
        (∀ j, j < off ∨ off + 3 * w * n ≤ j → m'.val j = m.val j) ∧
        ∀ i k c, i < n → k < w → c < 3 →
          m'.val (off + 3 * w * i + 3 * k + c) =
            pixelChannel ((d.getD (y + i) []).getD k default) c % 256 := by
  intro n
  induction n with
  | zero =>
    intro y m off _ _ _
    exact ⟨m, by simp [serRowsAux], rfl, fun j _ => rfl, fun i k c hi _ _ => by omega⟩
  | succ q ih =>
    intro y m off hlen hrows hsz
    rw [show 3 * w * (q + 1) = 3 * w + 3 * w * q from by ring] at hsz
    have hy : y < d.length := by omega
    have hrowy : d[y]? = some (d.getD y []) := by
      rw [List.getElem?_eq_getElem hy, List.getD_eq_getElem _ _ hy]
    have hrlen : (d.getD y []).length = w := by
      refine hrows _ ?_
      rw [List.getD_eq_getElem _ _ hy]
      exact List.getElem_mem hy
    simp only [serRowsAux, Option.bind_eq_bind]
    rw [hrowy]
    simp only [Option.some_bind]
    obtain ⟨mr, her, hsr, hur, hbr⟩ := serRowAux_spec (d.getD y []) w 0 m off
      (by omega) (by omega)
    rw [her]
    simp only [Option.some_bind]
    obtain ⟨m', he, hs, hu, hb⟩ := ih (y + 1) mr (off + 3 * w) (by omega)
      hrows (by omega)
    rw [he]
    refine ⟨m',
      by rw [show off + 3 * w + 3 * w * q = off + 3 * w * (q + 1) from by ring],
      by rw [hs, hsr], ?_, ?_⟩
    · intro j hj
      rw [show 3 * w * (q + 1) = 3 * w + 3 * w * q from by ring] at hj
      rw [hu j (by omega), hur j (by omega)]
    · intro i k c hi hk hc
      cases i with
      | zero =>
        have hw3 : 3 * k + c < 3 * w := by omega
        rw [show off + 3 * w * 0 + 3 * k + c = off + (3 * k + c) from by ring]
        rw [hu (off + (3 * k + c)) (by omega)]
        have := hbr k c hk hc
        rw [show off + (3 * k + c) = off + 3 * k + c from by ring, this,
          Nat.zero_add, Nat.add_zero]
      | succ i' =>
        have := hb i' k c (by omega) hk hc
        rw [show off + 3 * w * (i' + 1) + 3 * k + c =
          off + 3 * w + 3 * w * i' + 3 * k + c from by ring, this,
          show y + 1 + i' = y + (i' + 1) from by ring]

/-- The packed row size is at most the padded stride. -/
theorem le_specStride (w : Nat) : w * 3 ≤ specStride w := by
  unfold specStride
  omega

/-- The serializer's row-size expression, with 24 bits per pixel, is the
spec stride of the nonnegative width. -/
theorem fdiv_stride_eq_specStride24 (i : Int) (h : 0 ≤ i) :
    (i * ((24 / 8 : Nat) : Int) + 3).fdiv 4 * 4 = (specStride i.toNat : Int) := by
  obtain ⟨n, rfl⟩ := Int.eq_ofNat_of_zero_le h
  rw [Int.toNat_natCast]
  rw [show (((24 / 8 : Nat) : Int)) = 3 from rfl]
  exact fdiv_stride_eq_specStride n

/-- Every byte of `SerializeBMP`'s output, for a rectangular 24-bit image
with a data offset past the header area: the buffer has the padded total
size, the 54 header bytes come first, the pixel rows are PACKED back to
back from `DataOffset` on (3 bytes per pixel, `3*width` per row, no per-row
padding), and all remaining bytes — the accumulated padding at the end —
are zero. -/
theorem serializeBMP_spec (img : BMPImage)
    (hw0 : 0 ≤ img.infoHeader.width)
    (hbpp : img.infoHeader.bitsPerPixel = 24)
    (hdo : 54 ≤ img.header.dataOffset)
    (hdlen : img.data.length = img.infoHeader.height.natAbs)
    (hrows : ∀ row ∈ img.data, row.length = img.infoHeader.width.toNat) :
    ∃ out, serializeBMP img = some out ∧
      out.length = img.header.dataOffset +
        specStride img.infoHeader.width.toNat * img.infoHeader.height.natAbs ∧
      (∀ j, j < 54 → out.getD j 0 = (headerBytes img).getD j 0) ∧
      (∀ y x c, y < img.infoHeader.height.natAbs →
        x < img.infoHeader.width.toNat → c < 3 →
        out.getD (img.header.dataOffset +
          3 * img.infoHeader.width.toNat * y + 3 * x + c) 0 =
          pixelChannel ((img.data.getD y []).getD x default) c % 256) ∧
      ∀ j, img.header.dataOffset +
        3 * img.infoHeader.width.toNat * img.infoHeader.height.natAbs ≤ j →
        out.getD j 0 = 0 := by
  have h3w : 3 * img.infoHeader.width.toNat ≤ specStride img.infoHeader.width.toNat := by
    have := le_specStride img.infoHeader.width.toNat
    omega
  have hmul : 3 * img.infoHeader.width.toNat * img.infoHeader.height.natAbs ≤
      specStride img.infoHeader.width.toNat * img.infoHeader.height.natAbs :=
    Nat.mul_le_mul_right _ h3w
  obtain ⟨mA, heA, hsA, huA, hbA⟩ := putFileHeader_spec img
    ⟨img.header.dataOffset +
      specStride img.infoHeader.width.toNat * img.infoHeader.height.natAbs,
      fun _ => 0⟩ (by dsimp only; omega)
  dsimp only at hsA
  obtain ⟨mB, heB, hsB, huB, hbB⟩ := putDIBHeaderA_spec img mA (by omega)
  obtain ⟨mC, heC, hsC, huC, hbC⟩ := putDIBHeaderB_spec img mB (by omega)
  obtain ⟨mD, heD, hsD, huD, hbD⟩ := serRowsAux_spec img.data
    img.infoHeader.width.toNat img.infoHeader.height.natAbs 0 mC
    img.header.dataOffset (by omega) hrows (by omega)
  refine ⟨(List.range mD.size).map mD.val, ?_, ?_, ?_, ?_, ?_⟩
  · simp only [serializeBMP, Option.bind_eq_bind, hbpp]
    rw [fdiv_stride_eq_specStride24 _ hw0]
    rw [show (24 / 8 : Nat) = 3 from rfl]
    rw [show ((img.header.dataOffset : Int) +
        (specStride img.infoHeader.width.toNat : Int) *
          (img.infoHeader.height.natAbs : Int)) =
      ((img.header.dataOffset +
        specStride img.infoHeader.width.toNat * img.infoHeader.height.natAbs
          : Nat) : Int) from by push_cast; ring]
    rw [if_neg (by omega), Int.toNat_natCast]
    rw [heA]
    simp only [Option.some_bind]
    rw [heB]
    simp only [Option.some_bind]
    rw [heC]
    simp only [Option.some_bind]
    rw [heD]
    simp only [Option.some_bind]
    rfl
  · rw [List.length_map, List.length_range, hsD, hsC, hsB, hsA]
  · intro j hj
    rw [getD_map_range _ _ (by omega)]
    rw [huD j (Or.inl (by omega))]
    rcases Nat.lt_or_ge j 14 with hc | hc
    · rw [huC j (Or.inl (by omega)), huB j (Or.inl hc), hbA j hc]
    rcases Nat.lt_or_ge j 30 with hc2 | hc2
    · rw [huC j (Or.inl hc2), hbB j hc hc2]
    · rw [hbC j hc2 hj]
  · intro y x c hy hx hc
    have e1 : 3 * img.infoHeader.width.toNat * (y + 1) =
        3 * img.infoHeader.width.toNat * y + 3 * img.infoHeader.width.toNat := by
      ring
    have e2 : 3 * img.infoHeader.width.toNat * (y + 1) ≤
        3 * img.infoHeader.width.toNat * img.infoHeader.height.natAbs :=
      Nat.mul_le_mul_left _ (by omega)
    rw [getD_map_range _ _ (by omega)]
    rw [hbD y x c hy hx hc, Nat.zero_add]
  · intro j hjge
    rcases Nat.lt_or_ge j mD.size with hlt | hge
    · rw [getD_map_range _ _ hlt]
      rw [huD j (Or.inr hjge)]
      rw [huC j (Or.inr (by omega)), huB j (Or.inr (by omega)),
        huA j (by omega)]
    · rw [List.getD_eq_default _ _ (by rw [List.length_map, List.length_range]; omega)]

/-- C4 amended: for every rectangular 24-bit image whose `DataOffset` is at
least 54, `SerializeBMP` produces a buffer of the padded total size
`DataOffset + stride*abs(height)`, but the rows are packed back to back at
the unpadded `width*3` bytes each — `Data[y][x]`'s bytes sit at
`DataOffset + (y*width + x)*3` — and all the padding accumulates as zero
bytes at the end of the buffer, not at the end of each row. -/
theorem serialize_rows_packed (img : BMPImage)
    (hw0 : 0 ≤ img.infoHeader.width)
    (hbpp : img.infoHeader.bitsPerPixel = 24)
    (hdo : 54 ≤ img.header.dataOffset)
    (hdlen : img.data.length = img.infoHeader.height.natAbs)
    (hrows : ∀ row ∈ img.data, row.length = img.infoHeader.width.toNat) :
    ∃ out, serializeBMP img = some out ∧
      out.length = img.header.dataOffset +
        specStride img.infoHeader.width.toNat * img.infoHeader.height.natAbs ∧
      (∀ y x c, y < img.infoHeader.height.natAbs →
        x < img.infoHeader.width.toNat → c < 3 →
        out.getD (img.header.dataOffset +
          3 * img.infoHeader.width.toNat * y + 3 * x + c) 0 =
          pixelChannel ((img.data.getD y []).getD x default) c % 256) ∧
      ∀ j, img.header.dataOffset +
        3 * img.infoHeader.width.toNat * img.infoHeader.height.natAbs ≤ j →
        out.getD j 0 = 0 := by
  obtain ⟨out, h1, h2, _, h4, h5⟩ := serializeBMP_spec img hw0 hbpp hdo hdlen hrows
  exact ⟨out, h1, h2, h4, h5⟩

/-- Counterexample to C4: serializing the decoded 1-wide 4-tall image
gives back its own file, whose rows are packed — the byte at
`DataOffset + 3` (the claim's first per-row padding position) is the blue
channel of the second row, not zero. -/
theorem serialize_rows_not_padded :
    serializeBMP tallImg = some tallBuf ∧ ¬specPaddedLayout tallImg tallBuf := by
  constructor
  · rfl
  · decide

/-- Witness for the amended C4 at the decoded image `tallImg`. -/
theorem serialize_rows_packed_witness :
    ∃ out, serializeBMP tallImg = some out ∧
      out.length = tallImg.header.dataOffset +
        specStride tallImg.infoHeader.width.toNat * tallImg.infoHeader.height.natAbs ∧
      (∀ y x c, y < tallImg.infoHeader.height.natAbs →
        x < tallImg.infoHeader.width.toNat → c < 3 →
        out.getD (tallImg.header.dataOffset +
          3 * tallImg.infoHeader.width.toNat * y + 3 * x + c) 0 =
          pixelChannel ((tallImg.data.getD y []).getD x default) c % 256) ∧
      ∀ j, tallImg.header.dataOffset +
        3 * tallImg.infoHeader.width.toNat * tallImg.infoHeader.height.natAbs ≤ j →
        out.getD j 0 = 0 :=
  serialize_rows_packed tallImg (by decide) (by decide) (by decide) (by decide)
    (by decide)

/-! ## C1: the decode/encode/decode round trip -/

/-- Every default-0 read of a buffer of bytes is below 256. -/
theorem getD_lt_256 {b : List Nat} (hb : ∀ v ∈ b, v < 256) (i : Nat) :
    b.getD i 0 < 256 := by
  rcases Nat.lt_or_ge i b.length with hi | hi
  · rw [List.getD_eq_getElem _ _ hi]
    exact hb _ (List.getElem_mem hi)
  · rw [List.getD_eq_default _ _ hi]
    omega

/-- A 32-bit read of a byte buffer is below `2^32`. -/
theorem le32_lt {b : List Nat} (hb : ∀ v ∈ b, v < 256) (i : Nat) :
    le32 b i < 4294967296 := by
  have h0 := getD_lt_256 hb i
  have h1 := getD_lt_256 hb (i + 1)
  have h2 := getD_lt_256 hb (i + 2)
  have h3 := getD_lt_256 hb (i + 3)
  unfold le32
  omega

/-- A 16-bit read of a byte buffer is below `2^16`. -/
theorem le16_lt {b : List Nat} (hb : ∀ v ∈ b, v < 256) (i : Nat) :
    le16 b i < 65536 := by
  have h0 := getD_lt_256 hb i
  have h1 := getD_lt_256 hb (i + 1)
  unfold le16
  omega

/-- `uint32(...)` always lands below `2^32`. -/
theorem uint32OfInt_lt (i : Int) : uint32OfInt i < 4294967296 := by
  unfold uint32OfInt
  omega

/-- `int32(u)` of a `uint32` value lands in the `int32` range. -/
theorem int32OfUInt32_range {u : Nat} (h : u < 4294967296) :
    -2147483648 ≤ int32OfUInt32 u ∧ int32OfUInt32 u < 2147483648 := by
  unfold int32OfUInt32
  split_ifs <;> omega

/-- A 32-bit value written byte by byte reads back unchanged. -/
theorem le32_readback {out : List Nat} {v i : Nat}
    (h0 : out.getD i 0 = v % 256) (h1 : out.getD (i + 1) 0 = v / 256 % 256)
    (h2 : out.getD (i + 2) 0 = v / 65536 % 256)
    (h3 : out.getD (i + 3) 0 = v / 16777216 % 256)
    (hv : v < 4294967296) :
    le32 out i = v := by
  unfold le32
  rw [h0, h1, h2, h3]
  omega

/-- A 16-bit value written byte by byte reads back unchanged. -/
theorem le16_readback {out : List Nat} {v i : Nat}
    (h0 : out.getD i 0 = v % 256) (h1 : out.getD (i + 1) 0 = v / 256 % 256)
    (hv : v < 65536) :
    le16 out i = v := by
  unfold le16
  rw [h0, h1]
  omega

/-- A pixel whose three serialized channel bytes match the source buffer's
bytes reads back as the source pixel. -/
theorem pixelAt_eq_of_bytes {out b : List Nat} {P : Nat}
    (hbytes : ∀ v ∈ b, v < 256)
    (h0 : out.getD P 0 = pixelChannel (pixelAt b P) 0 % 256)
    (h1 : out.getD (P + 1) 0 = pixelChannel (pixelAt b P) 1 % 256)
    (h2 : out.getD (P + 2) 0 = pixelChannel (pixelAt b P) 2 % 256) :
    pixelAt out P = pixelAt b P := by
  have hb0 := getD_lt_256 hbytes P
  have hb1 := getD_lt_256 hbytes (P + 1)
  have hb2 := getD_lt_256 hbytes (P + 2)
  unfold pixelAt
  rw [h0, h1, h2]
  show Pixel.mk (b.getD P 0 % 256) (b.getD (P + 1) 0 % 256)
    (b.getD (P + 2) 0 % 256) = _
  rw [Nat.mod_eq_of_lt hb0, Nat.mod_eq_of_lt hb1, Nat.mod_eq_of_lt hb2]

/-- C1 amended: for every buffer of bytes (values below 256) that decodes
successfully, whose length is exactly `DataOffset + stride*abs(height)`
and whose `DataOffset` is at least 54, serializing the decoded image and
decoding again succeeds and returns the identical image.  (Decode accepts
buffers of other lengths as long as the `FileSize` field matches mod
`2^32`; on those the re-encoded file has a different length than the
recorded `FileSize`, and the second decode fails with the corrupt-file
error.) -/
theorem roundtrip (b : List Nat) (img : BMPImage)
    (hb : parseBMP b = .ok img)
    (hbytes : ∀ v ∈ b, v < 256)
    (hdo : 54 ≤ img.header.dataOffset)
    (hlen : b.length = img.header.dataOffset +
      specStride img.infoHeader.width.toNat * img.infoHeader.height.natAbs) :
    ∃ out, serializeBMP img = some out ∧ parseBMP out = .ok img := by
  -- unpack the successful decode
  simp only [parseBMP] at hb
  by_cases h1 : b.length < 54
  · rw [if_pos h1] at hb
    exact absurd hb (by simp)
  rw [if_neg h1] at hb
  by_cases h2 : ¬(b.getD 0 0 = 66 ∧ b.getD 1 0 = 77)
  · rw [if_pos h2] at hb
    exact absurd hb (by simp)
  rw [if_neg h2] at hb
  rw [not_not] at h2
  by_cases h3 : (parsedDIB b).size < 40
  · rw [if_pos h3] at hb
    exact absurd hb (by simp)
  rw [if_neg h3] at hb
  cases hv : validateHeaders (parsedFileHeader b) (parsedDIB b) b.length with
  | some e =>
    rw [hv] at hb
    exact absurd hb (by simp)
  | none =>
  rw [hv] at hb
  cases hr : readRows b (parsedFileHeader b).dataOffset
      ((parsedDIB b).width.toNat * ((parsedDIB b).bitsPerPixel / 8))
      ((parsedDIB b).bitsPerPixel / 8) (parsedDIB b).width.toNat 0
      (parsedDIB b).height.natAbs with
  | none =>
    rw [hr] at hb
    exact absurd hb (by simp)
  | some d =>
  rw [hr] at hb
  have himg : img = { header := parsedFileHeader b, infoHeader := parsedDIB b
                      data := d } := by
    cases hb
    rfl
  have hH : img.header = parsedFileHeader b := by rw [himg]
  have hI : img.infoHeader = parsedDIB b := by rw [himg]
  have hD : img.data = d := by rw [himg]
  -- facts from the validation
  have hfacts : img.header.fileSize = b.length % 4294967296 ∧
      0 < img.infoHeader.width ∧ img.infoHeader.height ≠ 0 ∧
      img.infoHeader.planes = 1 ∧ img.infoHeader.bitsPerPixel = 24 ∧
      img.infoHeader.compression = 0 := by
    rw [hH, hI]
    simp only [validateHeaders] at hv
    split_ifs at hv with c1 c2 c3 c4 c5 c6
    refine ⟨by omega, by omega, by omega, by omega, by omega, by omega⟩
  obtain ⟨hfseq, hwpos, hh0, hplanes, hbpp24, hcompr⟩ := hfacts
  -- the decoded grid, row by row
  rw [← hH, ← hI, hbpp24, show (24 / 8 : Nat) = 3 from rfl] at hr
  have hDchar := readRows_some_eq img.infoHeader.height.natAbs 0 hr
  -- the serialized buffer
  have hdlen : img.data.length = img.infoHeader.height.natAbs := by
    rw [hD, hDchar, List.length_map, List.length_range]
  have hrowlens : ∀ row ∈ img.data, row.length = img.infoHeader.width.toNat := by
    intro row hrow
    rw [hD, hDchar] at hrow
    obtain ⟨i, hi, hrow⟩ := List.mem_map.mp hrow
    rw [← hrow, List.length_map, List.length_range]
  obtain ⟨out, hser, hlenout, hhdr, hpix, htail⟩ := serializeBMP_spec img
    (by omega) hbpp24 hdo hdlen hrowlens
  refine ⟨out, hser, ?_⟩
  -- bounds of all header fields
  have hfslt : img.header.fileSize < 4294967296 := by
    rw [hH]
    exact le32_lt hbytes 2
  have hrsvlt : img.header.reserved < 4294967296 := by
    rw [hH]
    exact le32_lt hbytes 6
  have hdolt : img.header.dataOffset < 4294967296 := by
    rw [hH]
    exact le32_lt hbytes 10
  have hszlt : img.infoHeader.size < 4294967296 := by
    rw [hI]
    exact le32_lt hbytes 14
  have hcomprlt : img.infoHeader.compression < 4294967296 := by
    rw [hI]
    exact le32_lt hbytes 30
  have himgszlt : img.infoHeader.imageSize < 4294967296 := by
    rw [hI]
    exact le32_lt hbytes 34
  have hculte : img.infoHeader.colorsUsed < 4294967296 := by
    rw [hI]
    exact le32_lt hbytes 46
  have hcilt : img.infoHeader.colorsImportant < 4294967296 := by
    rw [hI]
    exact le32_lt hbytes 50
  have hplaneslt : img.infoHeader.planes < 65536 := by
    rw [hI]
    exact le16_lt hbytes 26
  have hbpplt : img.infoHeader.bitsPerPixel < 65536 := by
    rw [hI]
    exact le16_lt hbytes 28
  have hwrange : -2147483648 ≤ img.infoHeader.width ∧
      img.infoHeader.width < 2147483648 := by
    rw [hI]
    exact int32OfUInt32_range (le32_lt hbytes 18)
  have hhrange : -2147483648 ≤ img.infoHeader.height ∧
      img.infoHeader.height < 2147483648 := by
    rw [hI]
    exact int32OfUInt32_range (le32_lt hbytes 22)
  have hxrange : -2147483648 ≤ img.infoHeader.xPixelsPerMeter ∧
      img.infoHeader.xPixelsPerMeter < 2147483648 := by
    rw [hI]
    exact int32OfUInt32_range (le32_lt hbytes 38)
  have hyrange : -2147483648 ≤ img.infoHeader.yPixelsPerMeter ∧
      img.infoHeader.yPixelsPerMeter < 2147483648 := by
    rw [hI]
    exact int32OfUInt32_range (le32_lt hbytes 42)
  have hsig0lt : img.header.signature0 < 256 := by
    rw [hH]
    exact getD_lt_256 hbytes 0
  have hsig1lt : img.header.signature1 < 256 := by
    rw [hH]
    exact getD_lt_256 hbytes 1
  -- header field read-back
  have hsig0 : out.getD 0 0 = img.header.signature0 := by
    rw [hhdr 0 (by omega),
      show (headerBytes img).getD 0 0 = (img.header.signature0 % 256 +
        256 * (img.header.signature1 % 256)) % 256 from rfl]
    omega
  have hsig1 : out.getD 1 0 = img.header.signature1 := by
    rw [hhdr 1 (by omega),
      show (headerBytes img).getD 1 0 = (img.header.signature0 % 256 +
        256 * (img.header.signature1 % 256)) / 256 % 256 from rfl]
    omega
  have hfs : le32 out 2 = img.header.fileSize := by
    refine le32_readback ?_ ?_ ?_ ?_ hfslt
    · rw [hhdr 2 (by omega)]
      rfl
    · rw [hhdr 3 (by omega)]
      rfl
    · rw [hhdr 4 (by omega)]
      rfl
    · rw [hhdr 5 (by omega)]
      rfl
  have hrsv : le32 out 6 = img.header.reserved := by
    refine le32_readback ?_ ?_ ?_ ?_ hrsvlt
    · rw [hhdr 6 (by omega)]
      rfl
    · rw [hhdr 7 (by omega)]
      rfl
    · rw [hhdr 8 (by omega)]
      rfl
    · rw [hhdr 9 (by omega)]
      rfl
  have hdoff : le32 out 10 = img.header.dataOffset := by
    refine le32_readback ?_ ?_ ?_ ?_ hdolt
    · rw [hhdr 10 (by omega)]
      rfl
    · rw [hhdr 11 (by omega)]
      rfl
    · rw [hhdr 12 (by omega)]
      rfl
    · rw [hhdr 13 (by omega)]
      rfl
  have hsz : le32 out 14 = img.infoHeader.size := by
    refine le32_readback ?_ ?_ ?_ ?_ hszlt
    · rw [hhdr 14 (by omega)]
      rfl
    · rw [hhdr 15 (by omega)]
      rfl
    · rw [hhdr 16 (by omega)]
      rfl
    · rw [hhdr 17 (by omega)]
      rfl
  have hwrd : le32 out 18 = uint32OfInt img.infoHeader.width := by
    refine le32_readback ?_ ?_ ?_ ?_ (uint32OfInt_lt _)
    · rw [hhdr 18 (by omega)]
      rfl
    · rw [hhdr 19 (by omega)]
      rfl
    · rw [hhdr 20 (by omega)]
      rfl
    · rw [hhdr 21 (by omega)]
      rfl
  have hhrd : le32 out 22 = uint32OfInt img.infoHeader.height := by
    refine le32_readback ?_ ?_ ?_ ?_ (uint32OfInt_lt _)
    · rw [hhdr 22 (by omega)]
      rfl
    · rw [hhdr 23 (by omega)]
      rfl
    · rw [hhdr 24 (by omega)]
      rfl
    · rw [hhdr 25 (by omega)]
      rfl
  have hplrd : le16 out 26 = img.infoHeader.planes := by
    refine le16_readback ?_ ?_ hplaneslt
    · rw [hhdr 26 (by omega)]
      rfl
    · rw [hhdr 27 (by omega)]
      rfl
  have hbpprd : le16 out 28 = img.infoHeader.bitsPerPixel := by
    refine le16_readback ?_ ?_ hbpplt
    · rw [hhdr 28 (by omega)]
      rfl
    · rw [hhdr 29 (by omega)]
      rfl
  have hcomprd : le32 out 30 = img.infoHeader.compression := by
    refine le32_readback ?_ ?_ ?_ ?_ hcomprlt
    · rw [hhdr 30 (by omega)]
      rfl
    · rw [hhdr 31 (by omega)]
      rfl
    · rw [hhdr 32 (by omega)]
      rfl
    · rw [hhdr 33 (by omega)]
      rfl
  have himgszrd : le32 out 34 = img.infoHeader.imageSize := by
    refine le32_readback ?_ ?_ ?_ ?_ himgszlt
    · rw [hhdr 34 (by omega)]
      rfl
    · rw [hhdr 35 (by omega)]
      rfl
    · rw [hhdr 36 (by omega)]
      rfl
    · rw [hhdr 37 (by omega)]
      rfl
  have hxrd : le32 out 38 = uint32OfInt img.infoHeader.xPixelsPerMeter := by
    refine le32_readback ?_ ?_ ?_ ?_ (uint32OfInt_lt _)
    · rw [hhdr 38 (by omega)]
      rfl
    · rw [hhdr 39 (by omega)]
      rfl
    · rw [hhdr 40 (by omega)]
      rfl
    · rw [hhdr 41 (by omega)]
      rfl
  have hyrd : le32 out 42 = uint32OfInt img.infoHeader.yPixelsPerMeter := by
    refine le32_readback ?_ ?_ ?_ ?_ (uint32OfInt_lt _)
    · rw [hhdr 42 (by omega)]
      rfl
    · rw [hhdr 43 (by omega)]
      rfl
    · rw [hhdr 44 (by omega)]
      rfl
    · rw [hhdr 45 (by omega)]
      rfl
  have hcurd : le32 out 46 = img.infoHeader.colorsUsed := by
    refine le32_readback ?_ ?_ ?_ ?_ hculte
    · rw [hhdr 46 (by omega)]
      rfl
    · rw [hhdr 47 (by omega)]
      rfl
    · rw [hhdr 48 (by omega)]
      rfl
    · rw [hhdr 49 (by omega)]
      rfl
  have hcird : le32 out 50 = img.infoHeader.colorsImportant := by
    refine le32_readback ?_ ?_ ?_ ?_ hcilt
    · rw [hhdr 50 (by omega)]
      rfl
    · rw [hhdr 51 (by omega)]
      rfl
    · rw [hhdr 52 (by omega)]
      rfl
    · rw [hhdr 53 (by omega)]
      rfl
  have hPF : parsedFileHeader out = img.header := by
    unfold parsedFileHeader
    rw [hsig0, hsig1, hfs, hrsv, hdoff]
  have hDIB : parsedDIB out = img.infoHeader := by
    unfold parsedDIB
    rw [hsz, hwrd, hhrd, hplrd, hbpprd, hcomprd, himgszrd, hxrd, hyrd,
      hcurd, hcird]
    rw [show int32OfUInt32 (uint32OfInt img.infoHeader.width) =
      int32OfInt img.infoHeader.width from rfl]
    rw [show int32OfUInt32 (uint32OfInt img.infoHeader.height) =
      int32OfInt img.infoHeader.height from rfl]
    rw [show int32OfUInt32 (uint32OfInt img.infoHeader.xPixelsPerMeter) =
      int32OfInt img.infoHeader.xPixelsPerMeter from rfl]
    rw [show int32OfUInt32 (uint32OfInt img.infoHeader.yPixelsPerMeter) =
      int32OfInt img.infoHeader.yPixelsPerMeter from rfl]
    rw [int32OfInt_eq_self hwrange.1 hwrange.2,
      int32OfInt_eq_self hhrange.1 hhrange.2,
      int32OfInt_eq_self hxrange.1 hxrange.2,
      int32OfInt_eq_self hyrange.1 hyrange.2]
  -- sizes
  have h3w : 3 * img.infoHeader.width.toNat ≤
      specStride img.infoHeader.width.toNat := by
    have := le_specStride img.infoHeader.width.toNat
    omega
  have hmul : 3 * img.infoHeader.width.toNat * img.infoHeader.height.natAbs ≤
      specStride img.infoHeader.width.toNat * img.infoHeader.height.natAbs :=
    Nat.mul_le_mul_right _ h3w
  -- the second decode
  simp only [parseBMP]
  rw [if_neg (by omega)]
  rw [if_neg (by
    rw [not_not, hsig0, hsig1, hH]
    exact h2)]
  rw [if_neg (by
    rw [hDIB, hI]
    exact h3)]
  rw [show validateHeaders (parsedFileHeader out) (parsedDIB out) out.length =
    none from by
      rw [hPF, hDIB, hH, hI, show out.length = b.length from by omega]
      exact hv]
  rw [hDIB, hPF, hbpp24, show (24 / 8 : Nat) = 3 from rfl]
  rw [readRows_eq img.infoHeader.height.natAbs 0 (by
    intro i k hi hk
    have e4 : (i + 1) * (img.infoHeader.width.toNat * 3) =
        (0 + i) * (img.infoHeader.width.toNat * 3) +
          img.infoHeader.width.toNat * 3 := by
      ring
    have e5 : (i + 1) * (img.infoHeader.width.toNat * 3) ≤
        img.infoHeader.height.natAbs * (img.infoHeader.width.toNat * 3) :=
      Nat.mul_le_mul_right _ (by omega)
    have e6 : img.infoHeader.height.natAbs * (img.infoHeader.width.toNat * 3) =
        3 * img.infoHeader.width.toNat * img.infoHeader.height.natAbs := by
      ring
    omega)]
  have hgrid : ((List.range img.infoHeader.height.natAbs).map fun i =>
      (List.range img.infoHeader.width.toNat).map fun k =>
        pixelAt out (img.header.dataOffset +
          (0 + i) * (img.infoHeader.width.toNat * 3) + k * 3)) = img.data := by
    rw [hD, hDchar]
    refine List.map_congr_left ?_
    intro i hi
    rw [List.mem_range] at hi
    refine List.map_congr_left ?_
    intro k hk
    rw [List.mem_range] at hk
    have hpixel : (img.data.getD i []).getD k default =
        pixelAt b (img.header.dataOffset +
          (0 + i) * (img.infoHeader.width.toNat * 3) + k * 3) := by
      rw [hD, hDchar, getD_map_range _ _ hi, getD_map_range _ _ hk]
    refine pixelAt_eq_of_bytes hbytes ?_ ?_ ?_
    · have := hpix i k 0 hi hk (by omega)
      rw [hpixel] at this
      rw [show img.header.dataOffset + 3 * img.infoHeader.width.toNat * i +
          3 * k + 0 = img.header.dataOffset +
          (0 + i) * (img.infoHeader.width.toNat * 3) + k * 3 from by ring] at this
      exact this
    · have := hpix i k 1 hi hk (by omega)
      rw [hpixel] at this
      rw [show img.header.dataOffset + 3 * img.infoHeader.width.toNat * i +
          3 * k + 1 = img.header.dataOffset +
          (0 + i) * (img.infoHeader.width.toNat * 3) + k * 3 + 1 from by ring] at this
      exact this
    · have := hpix i k 2 hi hk (by omega)
      rw [hpixel] at this
      rw [show img.header.dataOffset + 3 * img.infoHeader.width.toNat * i +
          3 * k + 2 = img.header.dataOffset +
          (0 + i) * (img.infoHeader.width.toNat * 3) + k * 3 + 2 from by ring] at this
      exact this
  rw [hgrid]

/-- Counterexample to C1: `c1Buf` decodes, but re-encoding produces a
58-byte buffer whose recorded file size is still 57, so the second decode
fails the full-size check with the corrupt-file error instead of returning
the image. -/
theorem roundtrip_fails :
    parseBMP c1Buf = .ok c1Img ∧ serializeBMP c1Img = some c1Out ∧
      parseBMP c1Out = .error .corruptFile :=
  ⟨rfl, rfl, rfl⟩

/-- Witness for the amended C1 at `c1WBuf`: the decode/encode/decode round
trip returns the identical image. -/
theorem roundtrip_witness :
    parseBMP c1WBuf = .ok c1WImg ∧
      ∃ out, serializeBMP c1WImg = some out ∧ parseBMP out = .ok c1WImg :=
  ⟨rfl, roundtrip c1WBuf c1WImg rfl (by decide) (by decide) (by decide)⟩

end Bitmap

